import Mathlib

/-!
Plugin download pipeline and primary-key mode: a shallow embedding.

Embedding of `managedplugin/download.go` and `specs/pk_mode.go`.

Go values are modelled as follows.
* `string` and `[]byte` holding text are Lean `String`s; file and body contents
  are lists of bytes (`Fin 256`).
* `error` is `GoError`: the text returned by `Error()` together with the errors
  it wraps (`%w`, or the log of a `retry.Error`).
* Everything outside the program (network, registry, clock, standard-library
  parsers, host platform) is a field of `Env`; the program state it mutates
  (filesystem, standard output, requests sent, delays waited) is `World`.
-/

/-- Go `error` value: the text of `Error()` and the list of errors it wraps. -/
inductive GoError where
  | mk (msg : String) (wrapped : List GoError)

namespace GoError

/-- The text of `err.Error()`. -/
def Error : GoError → String
  | .mk m _ => m

/-- The errors reachable by one `Unwrap` step. -/
def causes : GoError → List GoError
  | .mk _ l => l

end GoError

/-- Go `string`. -/
abbrev GoString := String

/-- Go `errors.New(msg)`, also `fmt.Errorf` without a `%w` verb. -/
def errorsNew (msg : String) : GoError := .mk msg []

/-- Go `fmt.Errorf(pre + "%w", cause)`: the text is `pre` followed by the cause's text. -/
def errorfW (pre : String) (cause : GoError) : GoError := .mk (pre ++ cause.Error) [cause]

/-- Substring containment: `sub` occurs somewhere inside `s`. -/
def Contains (s sub : String) : Prop := sub.data <:+: s.data

instance instDecidableContains (s sub : String) : Decidable (Contains s sub) :=
  inferInstanceAs (Decidable (sub.data <:+: s.data))

/-! ## specs/pk_mode.go -/

namespace Specs

/-- Go `type PKMode int`. -/
structure PKMode where
  val : Int
deriving DecidableEq, Repr

def PKModeDefaultKeys : PKMode := ⟨0⟩

def PKModeLokiID : PKMode := ⟨1⟩

def pkModeStrings : List String := ["default", "loki-id-only"]

/-- Go `m.String()`: `pkModeStrings[m]`; `none` is the index-out-of-range panic. -/
def PKMode.String (m : PKMode) : Option GoString :=
  if m.val < 0 then none else pkModeStrings.get? m.val.toNat

/-- Go `m.MarshalJSON()`: the text between two double quotes. The returned error is
always nil; `none` is the panic inherited from `String`. -/
def PKMode.MarshalJSON (m : PKMode) : Option GoString :=
  match m.String with
  | none => none
  | some s => some ("\"" ++ s ++ "\"")

/-- Go `PKModeFromString(s)`: the pair `(mode, err)`. -/
def PKModeFromString (s : String) : PKMode × Option GoError :=
  if s = "default" then (PKModeDefaultKeys, none)
  else if s = "loki-id-only" then (PKModeLokiID, none)
  else (⟨0⟩, some (errorsNew ("invalid pk mode: " ++ s)))

/-- Go `(m *PKMode).UnmarshalJSON(data)`: the new value of `*m` and the error.
`unmarshal` stands for `json.Unmarshal` into a `string` variable. -/
def PKMode.UnmarshalJSON (unmarshal : GoString → Except GoError GoString) (m : PKMode)
    (data : GoString) : PKMode × Option GoError :=
  match unmarshal data with
  | .error err => (m, some err)
  | .ok pkMode =>
    match PKModeFromString pkMode with
    | (m1, some err) => (m1, some err)
    | (m1, none) => (m1, none)

/-- A decoder for JSON string literals without escape sequences, used to run
`UnmarshalJSON` on concrete inputs. -/
def plainJSONString (data : String) : Except GoError String :=
  match data.data with
  | [] => .error (errorsNew "unexpected end of JSON input")
  | c :: rest =>
    if c = Char.ofNat 34 ∧ rest.getLast? = some (Char.ofNat 34)
        ∧ (rest.dropLast.all fun x => x ≠ Char.ofNat 34 ∧ x ≠ Char.ofNat 92 ∧ 32 ≤ x.toNat) then
      .ok (String.mk rest.dropLast)
    else .error (errorsNew "invalid JSON string")

end Specs

/-! ## managedplugin/download.go -/

namespace ManagedPlugin

abbrev Byte := Fin 256

abbrev Bytes := List Byte

def DefaultDownloadDir : String := ".loki"

def RetryAttempts : Nat := 5

/-- Modelled from the spec: the declaration of `PluginType` is not part of the sources
at hand; the spec gives `kind ∈ {Source, Destination}`. -/
inductive PluginType where
  | PluginSource
  | PluginDestination
deriving DecidableEq, Repr

/-- Modelled from the spec: `loki_api.PluginAsset` is declared in another module; the
spec gives `{location, checksum}` (checksum empty when absent). -/
structure PluginAsset where
  Location : String
  Checksum : String
deriving DecidableEq, Repr

structure HubDownloadOptions where
  AuthToken : String
  TeamName : String
  LocalPath : String
  PluginTeam : String
  PluginKind : String
  PluginName : String
  PluginVersion : String
deriving DecidableEq, Repr

/-- A byte source (`io.Reader`): the bytes it delivers and the error that ends it
(`none` for a clean end of stream). -/
structure Stream where
  data : Bytes
  err : Option GoError

/-- The part of `*http.Response` the code reads. `ContentLength` only sizes the
progress bar and is left out. -/
structure Response where
  StatusCode : Nat
  Body : Stream

/-- The part of `net/url.URL` the code touches: `pre` is the scheme, authority and path
as `String()` renders them. -/
structure URL where
  pre : String
  ForceQuery : Bool
  RawQuery : String
  Fragment : String
deriving DecidableEq, Repr

/-- Go `u.String()`. The escaping of a non-empty fragment is left out: the code clears
the fragment before rendering. -/
def URL.String (u : URL) : GoString :=
  u.pre ++ (if u.ForceQuery = true ∨ u.RawQuery ≠ "" then "?" ++ u.RawQuery else "")
    ++ (if u.Fragment ≠ "" then "#" ++ u.Fragment else "")

/-- The arguments of one registry call. -/
structure HubRequest where
  server : String
  authorization : Option String
  teamName : Option String
  pluginTeam : String
  pluginKind : String
  pluginName : String
  pluginVersion : String
  target : String
  accept : String
deriving DecidableEq, Repr

/-- A network request that has been sent. -/
inductive Request where
  | head (url : String)
  | get (url : String)
  | hub (r : HubRequest)
deriving DecidableEq, Repr

/-- A filesystem node. -/
inductive Node where
  | file (data : Bytes)
  | dir
deriving DecidableEq, Repr

/-- Everything outside the program. -/
structure Env where
  /-- Go `runtime.GOOS`. -/
  GOOS : String
  /-- Go `runtime.GOARCH`. -/
  GOARCH : String
  /-- Value of the environment variable `LOKI_API_URL`. -/
  LOKI_API_URL : String
  /-- Go `filepath.Dir`. -/
  dir : String → String
  /-- Non-ASCII part of `unicode.IsPrint`. -/
  isPrint : Char → Bool
  /-- Failure of `http.NewRequestWithContext` for a URL. -/
  newRequestErr : String → Option GoError
  /-- Outcome of sending a HEAD request to a URL: an error or the status code. -/
  head : String → Except GoError Nat
  /-- Outcome of a GET request, by its position among all requests sent so far. -/
  get : Nat → Except GoError Response
  /-- Go `url.Parse`. -/
  urlParse : String → Except GoError URL
  /-- SHA-256 digest. -/
  sha256 : Bytes → Bytes
  /-- Failure of `os.MkdirAll` for a directory. -/
  mkdirAllErr : String → Option GoError
  /-- Failure of `os.Create` or `os.OpenFile` for a path. -/
  createErr : String → Option GoError
  /-- Failure of `Close` on the file at a path. -/
  closeErr : String → Option GoError
  /-- Go `zip.OpenReader` on the bytes of a file: the named entries. -/
  zipRead : Bytes → Except GoError (List (String × Stream))
  /-- Failure of `loki_api.NewClientWithResponses`. -/
  hubClientErr : Option GoError
  /-- Registry reply: the parsed 200 body (if any) and the status code. -/
  hubReply : HubRequest → Except GoError (Option PluginAsset × Int)

/-- The state the program changes. -/
structure World where
  /-- Filesystem: what is at each path. -/
  fs : String → Option Node
  /-- Texts written to standard output by `fmt.Printf`, oldest first. -/
  stdout : List String
  /-- Network requests sent, oldest first. -/
  requests : List Request
  /-- Number of retry delays waited. -/
  sleeps : Nat

namespace World

def print (w : World) (line : String) : World := { w with stdout := w.stdout ++ [line] }

def send (w : World) (r : Request) : World := { w with requests := w.requests ++ [r] }

def sleep (w : World) : World := { w with sleeps := w.sleeps + 1 }

/-- The world after sending the requests `rs` in order. -/
def sendAll (w : World) (rs : List Request) : World := { w with requests := w.requests ++ rs }

def setNode (w : World) (path : String) (n : Node) : World :=
  { w with fs := fun p => if p = path then some n else w.fs p }

/-- Go `os.Stat(path)` returned a nil error. -/
def exists_ (w : World) (path : String) : Bool := (w.fs path).isSome

end World

/-- An open `*os.File`: its name and the current write offset. -/
structure File where
  name : String
  offset : Nat
deriving DecidableEq, Repr

/-- Content of a file after writing `bs` at offset `off`. -/
def writeAt (old : Bytes) (off : Nat) (bs : Bytes) : Bytes :=
  old.take off ++ bs ++ old.drop (off + bs.length)

/-- Go `out.Write(bs)` on an open file: the bytes land at the current offset, which
advances. -/
def fileWrite (w : World) (out : File) (bs : Bytes) : World × File :=
  match w.fs out.name with
  | some (.file old) =>
    (w.setNode out.name (.file (writeAt old out.offset bs)),
      { out with offset := out.offset + bs.length })
  | _ => (w, { out with offset := out.offset + bs.length })

/-- Go `os.Create(path)` and `os.OpenFile(path, O_RDWR|O_CREATE|O_TRUNC, perm)`: the file
exists and is empty afterwards. -/
def osCreate (env : Env) (path : String) (w : World) : Except GoError File × World :=
  match env.createErr path with
  | some err => (.error err, w)
  | none =>
    match w.fs path with
    | some .dir => (.error (errorsNew ("open " ++ path ++ ": is a directory")), w)
    | _ => (.ok { name := path, offset := 0 }, w.setNode path (.file []))

/-- Go `os.MkdirAll(d, 0755)`. Only the leaf directory is recorded. -/
def osMkdirAll (env : Env) (d : String) (w : World) : Option GoError × World :=
  match env.mkdirAllErr d with
  | some err => (some err, w)
  | none =>
    match w.fs d with
    | some (.file _) => (some (errorsNew ("mkdir " ++ d ++ ": not a directory")), w)
    | some .dir => (none, w)
    | none => (none, w.setNode d .dir)

/-- Go `strings.HasPrefix(s, p)`. -/
def HasPrefix (s p : String) : Bool := p.data.isPrefixOf s.data

def hexDigit (n : Nat) : Char :=
  if n < 10 then Char.ofNat (48 + n) else Char.ofNat (87 + n)

/-- Go `fmt.Sprintf("%x", bs)` for a byte slice: two lowercase hex digits per byte. -/
def hexEncode (bs : Bytes) : String :=
  String.mk (bs.flatMap fun b => [hexDigit (b.val / 16), hexDigit (b.val % 16)])

/-- Fixed-width lowercase hex of `n`, `width` digits. -/
def hexFixed : Nat → Nat → List Char
  | 0, _ => []
  | width + 1, n => hexFixed width (n / 16) ++ [hexDigit (n % 16)]

/-- One rune of Go `strconv.Quote` (the `%q` verb). -/
def quoteRune (isPrint : Char → Bool) (c : Char) : List Char :=
  let r := c.toNat
  if r = 34 ∨ r = 92 then [Char.ofNat 92, c]
  else if 32 ≤ r ∧ r < 127 then [c]
  else if 128 ≤ r ∧ isPrint c = true then [c]
  else if r = 7 then [Char.ofNat 92, 'a']
  else if r = 8 then [Char.ofNat 92, 'b']
  else if r = 12 then [Char.ofNat 92, 'f']
  else if r = 10 then [Char.ofNat 92, 'n']
  else if r = 13 then [Char.ofNat 92, 'r']
  else if r = 9 then [Char.ofNat 92, 't']
  else if r = 11 then [Char.ofNat 92, 'v']
  else if r < 32 ∨ r = 127 then [Char.ofNat 92, 'x'] ++ hexFixed 2 r
  else if r < 65536 then [Char.ofNat 92, 'u'] ++ hexFixed 4 r
  else [Char.ofNat 92, 'U'] ++ hexFixed 8 r

/-- Go `strconv.Quote(s)`, what `%q` prints for a string. -/
def goQuote (isPrint : Char → Bool) (s : String) : String :=
  String.mk ([Char.ofNat 34] ++ s.data.flatMap (quoteRune isPrint) ++ [Char.ofNat 34])

def APIBaseURL (env : Env) : String :=
  if env.LOKI_API_URL ≠ "" then env.LOKI_API_URL else "https://api.lokipixis.ai"

/-- The candidate list built at the top of `getURLLocation`. -/
def candidateURLs (env : Env) (org name version : String) (typ : PluginType) : List String :=
  let urls := ["https://github.com/" ++ org ++ "/loki-source-" ++ name ++ "/releases/download/"
    ++ version ++ "/loki-source-" ++ name ++ "_" ++ env.GOOS ++ "_" ++ env.GOARCH ++ ".zip"]
  let urls := if org = "pixis" then
      urls ++ ["https://github.com/pixis/loki/releases/download/plugins-source-" ++ name ++ "-"
        ++ version ++ "/" ++ name ++ "_" ++ env.GOOS ++ "_" ++ env.GOARCH ++ ".zip"]
    else urls
  if typ = PluginType.PluginDestination then
    let urls := ["https://github.com/" ++ org ++ "/loki-destination-" ++ name
      ++ "/releases/download/" ++ version ++ "/loki-destination-" ++ name ++ "_" ++ env.GOOS
      ++ "_" ++ env.GOARCH ++ ".zip"]
    if org = "pixis" then
      urls ++ ["https://github.com/pixisai/loki/releases/download/plugins-destination-" ++ name
        ++ "-" ++ version ++ "/" ++ name ++ "_" ++ env.GOOS ++ "_" ++ env.GOARCH ++ ".zip"]
    else urls
  else urls

/-- The probing loop of `getURLLocation`; `none` means the loop ran off the end of the
list. -/
def probeLoop (env : Env) : List String → World → Option (Except GoError String) × World
  | [], w => (none, w)
  | downloadURL :: rest, w =>
    match env.newRequestErr downloadURL with
    | some err => (some (.error (errorfW ("failed create request " ++ downloadURL ++ ": ") err)), w)
    | none =>
      match env.head downloadURL with
      | .error err =>
        (some (.error (errorfW ("failed to get url " ++ downloadURL ++ ": ") err)),
          w.send (.head downloadURL))
      | .ok statusCode =>
        if statusCode = 404 then probeLoop env rest (w.send (.head downloadURL))
        else if statusCode ≠ 200 then
          (some (.error (errorsNew "statusCode != 200")),
            (w.send (.head downloadURL)).print ("Failed downloading " ++ downloadURL
              ++ " with status code " ++ toString statusCode ++ ". Retrying\n"))
        else (some (.ok downloadURL), w.send (.head downloadURL))

def getURLLocation (env : Env) (org name version : String) (typ : PluginType) (w : World) :
    Except GoError String × World :=
  match probeLoop env (candidateURLs env org name version typ) w with
  | (some r, w1) => (r, w1)
  | (none, w1) =>
    (.error (errorsNew ("failed to find plugin " ++ org ++ "/" ++ name ++ " version " ++ version)),
      w1)

/-- Modelled from the spec: the loop of `retry.Do` of the retry library (not part of the
sources at hand), for a positive attempt budget: run the function; stop on success, on
an error the `RetryIf` predicate rejects, or when the budget is used up; otherwise wait
the delay and run it again. Every error is appended to the log that becomes the
`retry.Error`. `remaining` is the number of attempts still allowed after this one. -/
def retryLoop {σ : Type} (f : σ → Option GoError × σ) (retryIf : GoError → Bool)
    (delay : σ → σ) : Nat → List GoError → σ → Option (List GoError) × σ
  | 0, errorLog, s =>
    match f s with
    | (none, s1) => (none, s1)
    | (some err, s1) => (some (errorLog ++ [err]), s1)
  | remaining + 1, errorLog, s =>
    match f s with
    | (none, s1) => (none, s1)
    | (some err, s1) =>
      if retryIf err = true then
        retryLoop f retryIf delay remaining (errorLog ++ [err]) (delay s1)
      else (some (errorLog ++ [err]), s1)

/-- Lines of the text of a `retry.Error`, numbered from `i + 1`. -/
def retryLines : Nat → List GoError → List String
  | _, [] => []
  | i, e :: rest => ("#" ++ toString (i + 1) ++ ": " ++ e.Error) :: retryLines (i + 1) rest

/-- Go `strings.Join(xs, sep)`. -/
def joinWith (sep : String) : List String → String
  | [] => ""
  | [x] => x
  | x :: y :: rest => x ++ sep ++ joinWith sep (y :: rest)

/-- Modelled from the spec: the `retry.Error` value made of the logged errors; its text
lists them, numbered from 1. -/
def retryError (log : List GoError) : GoError :=
  .mk ("All attempts fail:\n" ++ joinWith "\n" (retryLines 0 log)) log

/-- The variables the retried closure of `downloadFileFromURL` reads and writes. -/
structure DlState where
  w : World
  out : File
  checksum : String

/-- The value of `urlForLog` in `downloadFileFromURL`: the URL rendered again with its
query and fragment cleared, or the URL itself when it does not parse. -/
def urlForLog (env : Env) (downloadURL : String) : String :=
  match env.urlParse downloadURL with
  | .ok parsedURL => ({ parsedURL with RawQuery := "", Fragment := "" } : URL).String
  | .error _ => downloadURL

/-- The closure passed to `retry.Do` in `downloadFileFromURL`: one attempt. -/
def downloadAttempt (env : Env) (downloadURL : String) (s : DlState) : Option GoError × DlState :=
  let s : DlState := { s with checksum := "" }
  match env.newRequestErr downloadURL with
  | some err => (some (errorfW ("failed create request " ++ downloadURL ++ ": ") err), s)
  | none =>
    let s1 : DlState := { s with w := s.w.send (.get downloadURL) }
    match env.get s.w.requests.length with
    | .error err => (some (errorfW ("failed to get url " ++ downloadURL ++ ": ") err), s1)
    | .ok resp =>
      if resp.StatusCode = 404 then (some (errorsNew "not found"), s1)
      else if resp.StatusCode ≠ 200 then
        (some (errorsNew "statusCode != 200"),
          { s1 with w := s1.w.print ("Failed downloading " ++ downloadURL ++ " with status code "
              ++ toString resp.StatusCode ++ ". Retrying\n") })
      else
        let w2 := s1.w.print ("Downloading " ++ urlForLog env downloadURL ++ "\n")
        let wf := fileWrite w2 s1.out resp.Body.data
        match resp.Body.err with
        | some err =>
          (some (errorfW ("failed to copy body to file " ++ s1.out.name ++ ": ") err),
            { w := wf.1, out := wf.2, checksum := "" })
        | none =>
          (none, { w := wf.1, out := wf.2, checksum := hexEncode (env.sha256 resp.Body.data) })

/-- The `retry.RetryIf` predicate of `downloadFileFromURL`. -/
def retryIfStatus (err : GoError) : Bool := err.Error == "statusCode != 200"

def downloadFileFromURL (env : Env) (out : File) (downloadURL : String) (w : World) :
    Except GoError String × World :=
  match retryLoop (downloadAttempt env downloadURL) retryIfStatus
      (fun s => { s with w := s.w.sleep }) (RetryAttempts - 1) []
      { w := w, out := out, checksum := "" } with
  | (some log, s) =>
    match log.find? (fun e => e.Error == "not found") with
    | some e => (.error e, s.w)
    | none =>
      (.error (errorfW ("failed downloading URL " ++ goQuote env.isPrint downloadURL ++ ". Error ")
        (retryError log)), s.w)
  | (none, s) => (.ok s.checksum, s.w)

def downloadFile (env : Env) (localPath downloadURL : String) (w : World) :
    Except GoError String × World :=
  match osCreate env localPath w with
  | (.error err, w1) => (.error (errorfW ("failed to create file " ++ localPath ++ ": ") err), w1)
  | (.ok out, w1) => downloadFileFromURL env out downloadURL w1

def WithBinarySuffix (env : Env) (filePath : String) : String :=
  if env.GOOS = "windows" then filePath ++ ".exe" else filePath

/-- Go `zip.OpenReader(path)`: the entries of the archive stored at `path`. -/
def zipOpenReader (env : Env) (path : String) (w : World) :
    Except GoError (List (String × Stream)) :=
  match w.fs path with
  | some (.file d) => env.zipRead d
  | _ => .error (errorsNew ("open " ++ path ++ ": no such file or directory"))

/-- Go `archive.Open(name)`. -/
def archiveOpen (archive : List (String × Stream)) (name : String) : Except GoError Stream :=
  match archive.lookup name with
  | some f => .ok f
  | none => .error (errorsNew ("open " ++ name ++ ": file does not exist"))

/-- The tail shared by both orchestrators (the same statements in each): create the final
file, copy the entry into it, close it. -/
def writeEntry (env : Env) (localPath : String) (fileInArchive : Stream) (w : World) :
    Option GoError × World :=
  match osCreate env localPath w with
  | (.error err, w1) => (some (errorfW ("failed to create file " ++ localPath ++ ": ") err), w1)
  | (.ok out, w1) =>
    let w2 := (fileWrite w1 out fileInArchive.data).1
    match fileInArchive.err with
    | some err => (some (errorfW "failed to copy body to file: " err), w2)
    | none =>
      match env.closeErr localPath with
      | some err => (some (errorfW "failed to close file: " err), w2)
      | none => (none, w2)

/-- The `switch` on the URL in `DownloadPluginFromGithub`; `none` is the `default`
branch. -/
def pathInArchive (org name downloadURL : String) : Option String :=
  if HasPrefix downloadURL "https://github.com/pixisai/loki/releases/download/plugins-plugin" then
    some ("plugins/plugin/" ++ name)
  else if HasPrefix downloadURL
      "https://github.com/pixisai/loki/releases/download/plugins-source" then
    some ("plugins/source/" ++ name)
  else if HasPrefix downloadURL
      "https://github.com/pixisai/loki/releases/download/plugins-destination" then
    some ("plugins/destination/" ++ name)
  else if HasPrefix downloadURL ("https://github.com/" ++ org ++ "/loki-plugin") then
    some ("loki-plugin-" ++ name)
  else if HasPrefix downloadURL ("https://github.com/" ++ org ++ "/loki-source") then
    some ("loki-source-" ++ name)
  else if HasPrefix downloadURL ("https://github.com/" ++ org ++ "/loki-destination") then
    some ("loki-destination-" ++ name)
  else none

/-- The part of `DownloadPluginFromGithub` after the download: open the archive, pick the
entry, write it to the final path. -/
def extractGithub (env : Env) (localPath org name downloadURL : String) (w : World) :
    Option GoError × World :=
  match zipOpenReader env (localPath ++ ".zip") w with
  | .error err => (some (errorfW "failed to open plugin archive: " err), w)
  | .ok archive =>
    match pathInArchive org name downloadURL with
    | none => (some (errorsNew ("unknown GitHub " ++ downloadURL)), w)
    | some p =>
      match archiveOpen archive (WithBinarySuffix env p) with
      | .error err =>
        (some (errorfW ("failed to open plugin archive plugins/source/" ++ name ++ ": ") err), w)
      | .ok fileInArchive => writeEntry env localPath fileInArchive w

def DownloadPluginFromGithub (env : Env) (localPath org name version : String)
    (typ : PluginType) (w : World) : Option GoError × World :=
  let downloadDir := env.dir localPath
  let pluginZipPath := localPath ++ ".zip"
  if w.exists_ localPath = true then (none, w)
  else
    match osMkdirAll env downloadDir w with
    | (some err, w1) =>
      (some (errorfW ("failed to create plugin directory " ++ downloadDir ++ ": ") err), w1)
    | (none, w1) =>
      match getURLLocation env org name version typ w1 with
      | (.error err, w2) => (some (errorfW "failed to get plugin url: " err), w2)
      | (.ok downloadURL, w2) =>
        match downloadFile env pluginZipPath downloadURL w2 with
        | (.error err, w3) => (some (errorfW "failed to download plugin: " err), w3)
        | (.ok _, w3) => extractGithub env localPath org name downloadURL w3

/-- The arguments both registry calls of `downloadPluginAssetFromHub` share; `team` is
the extra argument of the team-scoped call. -/
def hubRequest (env : Env) (ops : HubDownloadOptions) (team : Option String) : HubRequest where
  server := APIBaseURL env
  authorization := if ops.AuthToken ≠ "" then some ("Bearer " ++ ops.AuthToken) else none
  teamName := team
  pluginTeam := ops.PluginTeam
  pluginKind := ops.PluginKind
  pluginName := ops.PluginName
  pluginVersion := ops.PluginVersion
  target := env.GOOS ++ "_" ++ env.GOARCH
  accept := "application/json"

def downloadPluginAssetFromHub (env : Env) (ops : HubDownloadOptions) (w : World) :
    Except GoError (Option PluginAsset × Int) × World :=
  match env.hubClientErr with
  | some err => (.error (errorfW "failed to create Hub API client: " err), w)
  | none =>
    if ops.TeamName ≠ "" then
      let r := hubRequest env ops (some ops.TeamName)
      match env.hubReply r with
      | .error err => (.error (errorfW "failed to get plugin url with team: " err), w.send (.hub r))
      | .ok resp => (.ok resp, w.send (.hub r))
    else
      let r := hubRequest env ops none
      match env.hubReply r with
      | .error err => (.error (errorfW "failed to get plugin url: " err), w.send (.hub r))
      | .ok resp => (.ok resp, w.send (.hub r))

/-- The checksum comparison of `DownloadPluginFromHub`: the error it returns, if any, and
the world after its `Printf`. -/
def verifyChecksum (expected writtenChecksum : String) (w : World) : Option GoError × World :=
  if expected = "" then
    (none, w.print ("Warning - checksum not verified: " ++ writtenChecksum ++ "\n"))
  else if writtenChecksum ≠ expected then
    (some (errorsNew ("checksum mismatch: expected " ++ expected ++ ", got " ++ writtenChecksum)), w)
  else (none, w)

/-- The part of `DownloadPluginFromHub` after the checksum comparison. -/
def extractHub (env : Env) (ops : HubDownloadOptions) (w : World) : Option GoError × World :=
  match zipOpenReader env (ops.LocalPath ++ ".zip") w with
  | .error err => (some (errorfW "failed to open plugin archive: " err), w)
  | .ok archive =>
    match archiveOpen archive ("plugin-" ++ ops.PluginName ++ "-" ++ ops.PluginVersion ++ "-"
        ++ env.GOOS ++ "-" ++ env.GOARCH) with
    | .error err => (some (errorfW "failed to open plugin archive: " err), w)
    | .ok fileInArchive => writeEntry env ops.LocalPath fileInArchive w

/-- The part of `DownloadPluginFromHub` from the download on, given the asset. -/
def fetchHub (env : Env) (ops : HubDownloadOptions) (pluginAsset : PluginAsset) (w : World) :
    Option GoError × World :=
  match downloadFile env (ops.LocalPath ++ ".zip") pluginAsset.Location w with
  | (.error err, w1) => (some (errorfW "failed to download plugin: " err), w1)
  | (.ok writtenChecksum, w1) =>
    match verifyChecksum pluginAsset.Checksum writtenChecksum w1 with
    | (some err, w2) => (some err, w2)
    | (none, w2) => extractHub env ops w2

def DownloadPluginFromHub (env : Env) (ops : HubDownloadOptions) (w : World) :
    Option GoError × World :=
  let downloadDir := env.dir ops.LocalPath
  if w.exists_ ops.LocalPath = true then (none, w)
  else
    match osMkdirAll env downloadDir w with
    | (some err, w1) =>
      (some (errorfW ("failed to create plugin directory " ++ downloadDir ++ ": ") err), w1)
    | (none, w1) =>
      match downloadPluginAssetFromHub env ops w1 with
      | (.error err, w2) => (some (errorfW "failed to get plugin url: " err), w2)
      | (.ok (pluginAsset, statusCode), w2) =>
        let ident := ops.PluginKind ++ " " ++ ops.PluginTeam ++ "/" ++ ops.PluginName ++ "@"
          ++ ops.PluginVersion
        if statusCode = 200 then
          match pluginAsset with
          | none =>
            (some (errorsNew ("failed to get plugin url for " ++ ident
              ++ ": missing json response")), w2)
          | some asset =>
            if asset.Location.length = 0 then
              (some (errorsNew "failed to get plugin url: empty location from response"), w2)
            else fetchHub env ops asset w2
        else if statusCode = 401 then
          (some (errorsNew "unauthorized. Try logging in via `loki login`"), w2)
        else if statusCode = 404 then
          (some (errorsNew ("failed to download plugin " ++ ident ++ ": plugin version not found."
            ++ " If you're trying to use a private plugin you'll need to run `loki login` first")),
            w2)
        else if statusCode = 429 then
          (some (errorsNew ("too many download requests. Try logging in via `loki login` to"
            ++ " increase rate limits")), w2)
        else
          (some (errorsNew ("failed to download plugin " ++ ident ++ ": unexpected status code "
            ++ toString statusCode)), w2)

/-! ## Concrete scenarios -/

/-- The world before anything happened: an empty filesystem, nothing printed or sent. -/
def emptyWorld : World where
  fs := fun _ => none
  stdout := []
  requests := []
  sleeps := 0

/-- A stand-in for `url.Parse` on concrete inputs: cut the fragment at the first `#`, then
the query at the first `?`. -/
def splitURL (s : String) : URL :=
  let noFrag := s.data.takeWhile (fun c => c ≠ '#')
  let frag := (s.data.dropWhile (fun c => c ≠ '#')).drop 1
  let q := noFrag.dropWhile (fun c => c ≠ '?')
  { pre := String.mk (noFrag.takeWhile (fun c => c ≠ '?')),
    ForceQuery := decide (q = ['?']),
    RawQuery := String.mk (q.drop 1),
    Fragment := String.mk frag }

/-- A scenario: a linux/amd64 host on which every local operation succeeds, with the given
HEAD outcomes, GET outcomes, registry reply and archive content. -/
def scenario (head : String → Except GoError Nat) (get : Nat → Except GoError Response)
    (hub : Except GoError (Option PluginAsset × Int)) (zip : List (String × Stream)) : Env where
  GOOS := "linux"
  GOARCH := "amd64"
  LOKI_API_URL := ""
  dir := fun _ => "/tmp"
  isPrint := fun _ => false
  newRequestErr := fun _ => none
  head := head
  get := get
  urlParse := fun s => .ok (splitURL s)
  sha256 := fun bs => bs.take 1
  mkdirAllErr := fun _ => none
  createErr := fun _ => none
  closeErr := fun _ => none
  zipRead := fun _ => .ok zip
  hubClientErr := none
  hubReply := fun _ => hub

/-- A response with the given status and a two-byte body. -/
def reply (status : Nat) : Except GoError Response :=
  .ok { StatusCode := status, Body := { data := [80, 75], err := none } }

/-- Registry scenario: the registry answers 200 with a location and the given checksum,
the download answers 200 at once, and the archive holds the expected entry. -/
def hubEnv (checksum : String) : Env :=
  scenario (fun _ => .ok 404) (fun _ => reply 200)
    (.ok (some { Location := "https://cdn.example/aws.zip?sig=abc", Checksum := checksum }, 200))
    [("plugin-aws-v22.18.0-linux-amd64", { data := [1, 2, 3], err := none })]

/-- The options of the registry scenario. -/
def hubOps : HubDownloadOptions where
  AuthToken := ""
  TeamName := ""
  LocalPath := "/tmp/aws"
  PluginTeam := "loki"
  PluginKind := "source"
  PluginName := "aws"
  PluginVersion := "v22.18.0"

/-- A character `%q` prints as itself. -/
def plainChar (c : Char) : Prop := c.toNat ≠ 34 ∧ c.toNat ≠ 92 ∧ 32 ≤ c.toNat ∧ c.toNat < 127

/-- The text of the error of a result, if it is one. -/
def errorText {α : Type} : Except GoError α → Option String
  | .error e => some e.Error
  | .ok _ => none

/-- The per-repository candidate for `hackernews` v1.1.4 under organisation `pixis`. -/
def hnRepoURL : String :=
  "https://github.com/pixis/loki-source-hackernews/releases/download/v1.1.4/loki-source-hackernews_linux_amd64.zip"

/-- The monorepo candidate for `hackernews` v1.1.4 under organisation `pixis`. -/
def hnMonoURL : String :=
  "https://github.com/pixis/loki/releases/download/plugins-source-hackernews-v1.1.4/hackernews_linux_amd64.zip"

/-- Probing scenario: the per-repository candidate answers 404, every other URL 200; the
download answers 200 at once. -/
def probeEnv : Env :=
  scenario (fun u => if u = hnRepoURL then .ok 404 else .ok 200) (fun _ => reply 200)
    (.ok (none, 404)) [("plugins/source/hackernews", { data := [1, 2, 3], err := none })]

/-- Retry scenario: the first two requests are answered 503, every later one 200. -/
def flakyEnv : Env :=
  scenario (fun _ => .ok 200) (fun i => if i < 2 then reply 503 else reply 200)
    (.ok (none, 404)) []

/-- Retry scenario: every request is answered 503. -/
def busyEnv : Env :=
  scenario (fun _ => .ok 200) (fun _ => reply 503) (.ok (none, 404)) []

/-- Retry scenario: no request ever connects. -/
def downEnv : Env :=
  scenario (fun _ => .ok 200) (fun _ => .error (errorsNew "connection refused"))
    (.ok (none, 404)) []

/-- Retry scenario: the first request fails to connect, every later one is answered
200. -/
def refusedEnv : Env :=
  scenario (fun _ => .ok 200)
    (fun i => if i = 0 then .error (errorsNew "connection refused") else reply 200)
    (.ok (none, 404)) []

/-- Extraction scenario: probe and download succeed, the archive entry breaks off after
three bytes. -/
def truncatedEnv : Env :=
  scenario (fun _ => .ok 200) (fun _ => reply 200)
    (.ok (some { Location := "https://cdn.example/aws.zip", Checksum := "" }, 200))
    [("loki-source-hackernews", { data := [1, 2, 3], err := some (errorsNew "unexpected EOF") }),
     ("plugin-aws-v22.18.0-linux-amd64",
       { data := [4, 5], err := some (errorsNew "unexpected EOF") })]

/-- Extraction scenario: probe and download succeed, the archive holds no entry. -/
def emptyZipEnv : Env :=
  scenario (fun _ => .ok 200) (fun _ => reply 200) (.ok (none, 404)) []

/-- The open handle on the archive file used in the retry scenarios. -/
def zipHandle : File := { name := "/tmp/p.zip", offset := 0 }

/-- The value of a lowercase hexadecimal digit: `0`-`9` are 0 to 9, `a`-`f` are 10 to
15; any other character, upper-case letters included, has none. -/
def hexValue (c : Char) : Option Nat :=
  if 48 ≤ c.toNat ∧ c.toNat ≤ 57 then some (c.toNat - 48)
  else if 97 ≤ c.toNat ∧ c.toNat ≤ 102 then some (c.toNat - 87)
  else none

/-- Reading of a lowercase hexadecimal text as bytes: two digits per byte, the high
nibble first. -/
def hexDecodeLower : List Char → Option Bytes
  | [] => some []
  | [_] => none
  | hi :: lo :: rest =>
    match hexValue hi, hexValue lo, hexDecodeLower rest with
    | some h, some l, some bs => some (⟨(h * 16 + l) % 256, Nat.mod_lt _ (by decide)⟩ :: bs)
    | _, _, _ => none

/-- The error is the copy failure or the close failure of `writeEntry`. -/
def copyOrCloseFailure (err : GoError) : Prop :=
  (∃ e, err = errorfW "failed to copy body to file: " e)
  ∨ (∃ e, err = errorfW "failed to close file: " e)

/-- Nothing of the download is at the final path `p`: the path is absent, or it is the
directory `os.MkdirAll` made because `filepath.Dir p` is `p` itself. -/
def pathClear (env : Env) (w : World) (p : String) : Prop :=
  w.fs p = none ∨ (env.dir p = p ∧ w.fs p = some .dir)

/-- What a failed orchestrator run with error `err` leaves at the final path `p` in the
world `w1`: a file exactly when `err` is the copy or the close failure; otherwise
nothing of the download; after a copy failure the bytes delivered, before it broke, by
an entry of the archive that is still at the temporary path; after a close failure the
whole entry. -/
def finalPathOutcome (env : Env) (p : String) (err : GoError) (w1 : World) : Prop :=
  ((∃ d, w1.fs p = some (.file d)) ↔ copyOrCloseFailure err)
  ∧ (¬ copyOrCloseFailure err →
      pathClear env w1 p ∧ (env.dir p ≠ p → w1.exists_ p = false))
  ∧ (∀ e, err = errorfW "failed to copy body to file: " e →
      ∃ archive nm f, zipOpenReader env (p ++ ".zip") w1 = .ok archive
        ∧ archiveOpen archive nm = .ok f ∧ f.err = some e
        ∧ w1.fs p = some (.file f.data))
  ∧ (∀ e, err = errorfW "failed to close file: " e →
      ∃ archive nm f, zipOpenReader env (p ++ ".zip") w1 = .ok archive
        ∧ archiveOpen archive nm = .ok f ∧ f.err = none ∧ env.closeErr p = some e
        ∧ w1.fs p = some (.file f.data))

/-- Extraction scenario: probe, download and copy succeed, closing the final file
fails. -/
def closeFailEnv : Env :=
  { scenario (fun _ => .ok 200) (fun _ => reply 200) (.ok (none, 404))
      [("loki-source-hackernews", { data := [1, 2, 3], err := none })] with
    closeErr := fun _ => some (errorsNew "input/output error") }

end ManagedPlugin

/-! ## Properties of specs/pk_mode.go -/

namespace Specs

theorem pk_default_string : PKModeDefaultKeys.String = some "default" := by decide
theorem pk_lokiid_string : PKModeLokiID.String = some "loki-id-only" := by decide

/-- Claim C10. `PKModeFromString` is the inverse of `PKMode.String` on the defined
modes: `PKModeFromString s` succeeds with `m` exactly when `m` is `PKModeDefaultKeys` or
`PKModeLokiID` and `m.String() = s`; every element of `pkModeStrings` round-trips; every
other string is rejected with `invalid pk mode: <s>`; `MarshalJSON` gives `"loki-id-only"`
and `"default"` as quoted strings; and, for a JSON decoder that reads these two quoted
strings back, `UnmarshalJSON` of `MarshalJSON m` yields `m`. -/
theorem pkMode_roundtrip (unmarshal : GoString → Except GoError GoString)
    (hdec : ∀ s ∈ pkModeStrings, unmarshal ("\"" ++ s ++ "\"") = .ok s) :
    (∀ s m, PKModeFromString s = (m, none) ↔
      ((m = PKModeDefaultKeys ∨ m = PKModeLokiID) ∧ m.String = some s))
    ∧ (∀ s ∈ pkModeStrings, ∃ m, PKModeFromString s = (m, none) ∧ m.String = some s)
    ∧ (∀ s, s ∉ pkModeStrings →
        PKModeFromString s = (⟨0⟩, some (errorsNew ("invalid pk mode: " ++ s))))
    ∧ PKModeLokiID.MarshalJSON = some "\"loki-id-only\""
    ∧ PKModeDefaultKeys.MarshalJSON = some "\"default\""
    ∧ (∀ m m0, (m = PKModeDefaultKeys ∨ m = PKModeLokiID) →
        ∃ data, m.MarshalJSON = some data ∧ PKMode.UnmarshalJSON unmarshal m0 data = (m, none)) := by
  have hiff : ∀ s m, PKModeFromString s = (m, none) ↔
      ((m = PKModeDefaultKeys ∨ m = PKModeLokiID) ∧ m.String = some s) := by
    intro s m
    unfold PKModeFromString
    constructor
    · intro h
      split_ifs at h with h1 h2
      · simp only [Prod.mk.injEq, and_true] at h
        subst h; subst h1
        exact ⟨Or.inl rfl, pk_default_string⟩
      · simp only [Prod.mk.injEq, and_true] at h
        subst h; subst h2
        exact ⟨Or.inr rfl, pk_lokiid_string⟩
      · simp at h
    · rintro ⟨hm | hm, hs⟩
      · subst hm
        rw [pk_default_string] at hs
        simp only [Option.some.injEq] at hs
        subst hs
        simp
      · subst hm
        rw [pk_lokiid_string] at hs
        simp only [Option.some.injEq] at hs
        subst hs
        simp
  refine ⟨hiff, ?_, ?_, ?_, ?_, ?_⟩
  · intro s hs
    simp only [pkModeStrings, List.mem_cons, List.mem_singleton, List.not_mem_nil, or_false] at hs
    rcases hs with rfl | rfl
    · exact ⟨PKModeDefaultKeys, (hiff _ _).2 ⟨Or.inl rfl, pk_default_string⟩, pk_default_string⟩
    · exact ⟨PKModeLokiID, (hiff _ _).2 ⟨Or.inr rfl, pk_lokiid_string⟩, pk_lokiid_string⟩
  · intro s hs
    simp only [pkModeStrings, List.mem_cons, List.mem_singleton, List.not_mem_nil, or_false,
      not_or] at hs
    simp [PKModeFromString, hs.1, hs.2]
  · decide
  · decide
  · intro m m0 hm
    rcases hm with rfl | rfl
    · refine ⟨"\"default\"", by decide, ?_⟩
      have h := hdec "default" (by simp [pkModeStrings])
      have h2 : ("\"" ++ "default" ++ "\"" : String) = "\"default\"" := by decide
      rw [h2] at h
      simp [PKMode.UnmarshalJSON, h, PKModeFromString]
    · refine ⟨"\"loki-id-only\"", by decide, ?_⟩
      have h := hdec "loki-id-only" (by simp [pkModeStrings])
      have h2 : ("\"" ++ "loki-id-only" ++ "\"" : String) = "\"loki-id-only\"" := by decide
      rw [h2] at h
      simp [PKMode.UnmarshalJSON, h, PKModeFromString]

theorem plainJSONString_pkModeStrings :
    ∀ s ∈ pkModeStrings, plainJSONString ("\"" ++ s ++ "\"") = .ok s := by
  intro s hs
  simp only [pkModeStrings, List.mem_cons, List.mem_singleton, List.not_mem_nil, or_false] at hs
  rcases hs with rfl | rfl <;> rfl

theorem pkMode_roundtrip_witness :
    (∀ s ∈ pkModeStrings, plainJSONString ("\"" ++ s ++ "\"") = .ok s)
    ∧ (∃ data, PKModeLokiID.MarshalJSON = some data
        ∧ PKMode.UnmarshalJSON plainJSONString PKModeDefaultKeys data = (PKModeLokiID, none)) :=
  ⟨plainJSONString_pkModeStrings,
    (pkMode_roundtrip plainJSONString plainJSONString_pkModeStrings).2.2.2.2.2
      PKModeLokiID PKModeDefaultKeys (Or.inr rfl)⟩

end Specs

/-! ## Properties of managedplugin/download.go -/

namespace ManagedPlugin

set_option maxRecDepth 8000

theorem contains_mid (a sub b : String) : Contains (a ++ sub ++ b) sub :=
  ⟨a.data, b.data, by simp⟩

theorem contains_mid_right (a sub : String) : Contains (a ++ sub) sub :=
  ⟨a.data, [], by simp⟩

theorem contains_append (s t sub : String) (h : Contains s sub) : Contains (s ++ t) sub := by
  obtain ⟨a, b, hab⟩ := h
  exact ⟨a, b ++ t.data, by simp [← hab]⟩

theorem contains_prepend (s t sub : String) (h : Contains s sub) : Contains (t ++ s) sub := by
  obtain ⟨a, b, hab⟩ := h
  exact ⟨t.data ++ a, b, by simp [← hab]⟩

/-- Claim C2. In `DownloadPluginFromHub`, once the registry has answered 200 with an asset
and the download has produced digest `d`: the checksum comparison fails exactly when the
expected checksum `c` is non-empty and differs from `d` as a string; the failure is the
error `checksum mismatch: expected <c>, got <d>`, whose text contains both; an empty `c`
never fails, prints the warning and goes on to the extraction; and a matching `c` goes on
to the extraction. -/
theorem hub_checksum_step (env : Env) (ops : HubDownloadOptions) (asset : PluginAsset)
    (w w1 w2 w3 : World) (d : String)
    (hne : w.exists_ ops.LocalPath = false)
    (hmk : osMkdirAll env (env.dir ops.LocalPath) w = (none, w1))
    (hhub : downloadPluginAssetFromHub env ops w1 = (.ok (some asset, 200), w2))
    (hloc : asset.Location.length ≠ 0)
    (hdl : downloadFile env (ops.LocalPath ++ ".zip") asset.Location w2 = (.ok d, w3)) :
    ((verifyChecksum asset.Checksum d w3).1.isSome = true ↔
      (asset.Checksum ≠ "" ∧ asset.Checksum ≠ d))
    ∧ (asset.Checksum ≠ "" → asset.Checksum ≠ d →
        ∃ err, DownloadPluginFromHub env ops w = (some err, w3)
          ∧ err.Error = "checksum mismatch: expected " ++ asset.Checksum ++ ", got " ++ d
          ∧ Contains err.Error asset.Checksum ∧ Contains err.Error d)
    ∧ (asset.Checksum = "" →
        verifyChecksum asset.Checksum d w3
            = (none, w3.print ("Warning - checksum not verified: " ++ d ++ "\n"))
          ∧ DownloadPluginFromHub env ops w
            = extractHub env ops (w3.print ("Warning - checksum not verified: " ++ d ++ "\n")))
    ∧ (asset.Checksum ≠ "" → asset.Checksum = d →
        DownloadPluginFromHub env ops w = extractHub env ops w3) := by
  have hrun : DownloadPluginFromHub env ops w = fetchHub env ops asset w2 := by
    simp [DownloadPluginFromHub, hne, hmk, hhub, hloc]
  refine ⟨?_, ?_, ?_, ?_⟩
  · unfold verifyChecksum
    by_cases h1 : asset.Checksum = ""
    · simp [h1]
    · by_cases h2 : d = asset.Checksum
      · simp [h1, h2]
      · simp [h1, h2, Ne.symm h2]
  · intro h1 h2
    have h3 : d ≠ asset.Checksum := Ne.symm h2
    refine ⟨errorsNew ("checksum mismatch: expected " ++ asset.Checksum ++ ", got " ++ d),
      ?_, rfl, ?_, ?_⟩
    · rw [hrun]; simp [fetchHub, hdl, verifyChecksum, h1, h3]
    · exact contains_append _ _ _ (contains_append _ _ _ (contains_mid_right _ _))
    · exact contains_mid_right _ _
  · intro h1
    constructor
    · simp [verifyChecksum, h1]
    · rw [hrun]; simp [fetchHub, hdl, verifyChecksum, h1]
  · intro h1 h2
    have h3 : d ≠ "" := h2 ▸ h1
    rw [hrun]; simp [fetchHub, hdl, verifyChecksum, h2, h3]

theorem sendAll_nil (w : World) : w.sendAll [] = w := by
  simp [World.sendAll]

theorem send_sendAll (w : World) (r : Request) (rs : List Request) :
    (w.send r).sendAll rs = w.sendAll (r :: rs) := by
  simp [World.sendAll, World.send]

theorem sendAll_send (w : World) (r : Request) (rs : List Request) :
    (w.sendAll rs).send r = w.sendAll (rs ++ [r]) := by
  simp [World.sendAll, World.send]

/-- Candidates answering 404 are skipped: the loop continues with the rest, one HEAD
request sent for each. -/
theorem probeLoop_skip (env : Env) (pre rest : List String) (w : World)
    (h404 : ∀ a ∈ pre, env.newRequestErr a = none ∧ env.head a = .ok 404) :
    probeLoop env (pre ++ rest) w = probeLoop env rest (w.sendAll (pre.map Request.head)) := by
  induction pre generalizing w with
  | nil => simp [sendAll_nil]
  | cons a pre ih =>
    have ha := h404 a (List.mem_cons_self _ _)
    have hrest : ∀ b ∈ pre, env.newRequestErr b = none ∧ env.head b = .ok 404 :=
      fun b hb => h404 b (List.mem_cons_of_mem _ hb)
    simp only [List.cons_append, probeLoop, ha.1, ha.2, if_true, List.map_cons]
    exact (ih _ hrest).trans (by rw [send_sendAll])

/-- Claim C1. `getURLLocation` is decided by the first candidate, in list order, whose HEAD
probe is not a 404. When the candidates before `u` all answer 404: a 200 from `u` returns
exactly `u`; a request for `u` that cannot be built, or cannot be sent, or is answered by any
other status, returns an error; and in every case the HEAD requests sent are those for the
candidates up to the deciding one and nothing after it (none for `u` itself when its request
cannot be built). When every candidate answers 404 the result is the error
`failed to find plugin <org>/<name> version <version>`, whose text contains `org`, `name`
and `version`. For organisation `pixis` the list is `[A, B]`, and when `A` answers 404 and
`B` answers 200 the result is `B`. -/
theorem getURLLocation_first_non404 (env : Env) (org name version : String) (typ : PluginType)
    (w : World) :
    (∀ (pre post : List String) (u : String),
      candidateURLs env org name version typ = pre ++ u :: post →
      (∀ a ∈ pre, env.newRequestErr a = none ∧ env.head a = .ok 404) →
        (env.newRequestErr u = none → env.head u = .ok 200 →
          getURLLocation env org name version typ w
            = (.ok u, w.sendAll ((pre ++ [u]).map Request.head)))
        ∧ (∀ e, env.newRequestErr u = some e →
          getURLLocation env org name version typ w
            = (.error (errorfW ("failed create request " ++ u ++ ": ") e),
                w.sendAll (pre.map Request.head)))
        ∧ (∀ e, env.newRequestErr u = none → env.head u = .error e →
          getURLLocation env org name version typ w
            = (.error (errorfW ("failed to get url " ++ u ++ ": ") e),
                w.sendAll ((pre ++ [u]).map Request.head)))
        ∧ (∀ code, env.newRequestErr u = none → env.head u = .ok code → code ≠ 404 →
          code ≠ 200 →
          (getURLLocation env org name version typ w).1 = .error (errorsNew "statusCode != 200")
            ∧ (getURLLocation env org name version typ w).2.requests
              = w.requests ++ (pre ++ [u]).map Request.head))
    ∧ ((∀ a ∈ candidateURLs env org name version typ,
          env.newRequestErr a = none ∧ env.head a = .ok 404) →
        getURLLocation env org name version typ w
          = (.error (errorsNew ("failed to find plugin " ++ org ++ "/" ++ name ++ " version "
              ++ version)),
              w.sendAll ((candidateURLs env org name version typ).map Request.head))
        ∧ Contains ("failed to find plugin " ++ org ++ "/" ++ name ++ " version " ++ version) org
        ∧ Contains ("failed to find plugin " ++ org ++ "/" ++ name ++ " version " ++ version) name
        ∧ Contains ("failed to find plugin " ++ org ++ "/" ++ name ++ " version " ++ version)
            version)
    ∧ (org = "pixis" → ∃ A B, candidateURLs env org name version typ = [A, B]
        ∧ (env.newRequestErr A = none → env.head A = .ok 404 →
            env.newRequestErr B = none → env.head B = .ok 200 →
            getURLLocation env org name version typ w
              = (.ok B, w.sendAll [Request.head A, Request.head B]))) := by
  have key : ∀ (pre post : List String) (u : String),
      candidateURLs env org name version typ = pre ++ u :: post →
      (∀ a ∈ pre, env.newRequestErr a = none ∧ env.head a = .ok 404) →
      getURLLocation env org name version typ w =
        match probeLoop env (u :: post) (w.sendAll (pre.map Request.head)) with
        | (some r, w1) => (r, w1)
        | (none, w1) =>
          (.error (errorsNew ("failed to find plugin " ++ org ++ "/" ++ name ++ " version "
            ++ version)), w1) := by
    intro pre post u hsplit h404
    unfold getURLLocation
    rw [hsplit, probeLoop_skip env pre (u :: post) w h404]
    try rfl
  refine ⟨?_, ?_, ?_⟩
  · intro pre post u hsplit h404
    have hk := key pre post u hsplit h404
    refine ⟨?_, ?_, ?_, ?_⟩
    · intro h1 h2
      rw [hk]
      simp [probeLoop, h1, h2, sendAll_send]
    · intro e h1
      rw [hk]
      simp [probeLoop, h1]
    · intro e h1 h2
      rw [hk]
      simp [probeLoop, h1, h2, sendAll_send]
    · intro code h1 h2 h3 h4
      rw [hk]
      simp [probeLoop, h1, h2, h3, h4, World.sendAll, World.send, World.print]
  · intro hall
    refine ⟨?_, ?_, ?_, ?_⟩
    · unfold getURLLocation
      have := probeLoop_skip env (candidateURLs env org name version typ) [] w hall
      rw [List.append_nil] at this
      rw [this]
      simp [probeLoop]
    · exact contains_append _ _ _ (contains_append _ _ _ (contains_append _ _ _
        (contains_append _ _ _ (contains_mid_right _ _))))
    · exact contains_append _ _ _ (contains_append _ _ _ (contains_mid_right _ _))
    · exact contains_mid_right _ _
  · intro horg
    subst horg
    cases typ
    · refine ⟨_, _, rfl, ?_⟩
      intro h1 h2 h3 h4
      have hk := key [_] [] _ rfl (by simpa using ⟨h1, h2⟩)
      rw [hk]
      simp [probeLoop, h3, h4, World.sendAll, World.send]
    · refine ⟨_, _, rfl, ?_⟩
      intro h1 h2 h3 h4
      have hk := key [_] [] _ rfl (by simpa using ⟨h1, h2⟩)
      rw [hk]
      simp [probeLoop, h3, h4, World.sendAll, World.send]

/-- A text whose first character is `f` is not the retryable text. -/
theorem retryIfStatus_errorfW (p : String) (e : GoError) (hp : p.data.head? = some 'f') :
    retryIfStatus (errorfW p e) = false := by
  have hne : p ++ e.Error ≠ "statusCode != 200" := by
    intro h
    have h2 := congrArg (fun s : String => s.data.head?) h
    have h3 : (p ++ e.Error).data.head? = some 'f' := by
      rw [String.data_append]
      cases hpd : p.data with
      | nil => rw [hpd] at hp; simp at hp
      | cons c t => rw [hpd] at hp; simpa using hp
    have h4 : ("statusCode != 200" : String).data.head? = some 's' := by decide
    simp only [h3, h4] at h2
    exact absurd h2 (by decide)
  have hm : (errorfW p e).Error = p ++ e.Error := rfl
  unfold retryIfStatus
  rw [hm]
  simpa using hne

theorem notFound_errorfW (p : String) (e : GoError) (hp : p.data.head? = some 'f') :
    ((errorfW p e).Error == "not found") = false := by
  have hne : p ++ e.Error ≠ "not found" := by
    intro h
    have h2 := congrArg (fun s : String => s.data.head?) h
    have h3 : (p ++ e.Error).data.head? = some 'f' := by
      rw [String.data_append]
      cases hpd : p.data with
      | nil => rw [hpd] at hp; simp at hp
      | cons c t => rw [hpd] at hp; simpa using hp
    have h4 : ("not found" : String).data.head? = some 'n' := by decide
    simp only [h3, h4] at h2
    exact absurd h2 (by decide)
  have hm : (errorfW p e).Error = p ++ e.Error := rfl
  rw [hm]
  simpa using hne

theorem head_append_lit (a b : String) (c : Char) (h : a.data.head? = some c) :
    (a ++ b).data.head? = some c := by
  rw [String.data_append]
  cases hpd : a.data with
  | nil => rw [hpd] at h; simp at h
  | cons x t => rw [hpd] at h; simpa using h

theorem retryIfStatus_status : retryIfStatus (errorsNew "statusCode != 200") = true := by decide

theorem retryIfStatus_notFound : retryIfStatus (errorsNew "not found") = false := by decide

theorem fileWrite_requests (w : World) (out : File) (bs : Bytes) :
    (fileWrite w out bs).1.requests = w.requests := by
  unfold fileWrite
  split <;> simp [World.setNode]

theorem fileWrite_name (w : World) (out : File) (bs : Bytes) :
    (fileWrite w out bs).2.name = out.name := by
  unfold fileWrite
  split <;> simp

theorem fileWrite_fs_other (w : World) (out : File) (bs : Bytes) (p : String)
    (hp : p ≠ out.name) : (fileWrite w out bs).1.fs p = w.fs p := by
  unfold fileWrite
  split <;> simp [World.setNode, hp]

/-- An attempt answered by a status other than 200 and 404: the retryable error, one GET
sent, one line printed, the file untouched. -/
theorem attempt_status (env : Env) (url : String) (w : World) (out : File) (cs : String)
    (resp : Response) (hreq : env.newRequestErr url = none)
    (hget : env.get w.requests.length = .ok resp)
    (h404 : resp.StatusCode ≠ 404) (h200 : resp.StatusCode ≠ 200) :
    downloadAttempt env url ⟨w, out, cs⟩
      = (some (errorsNew "statusCode != 200"),
          ⟨(w.send (.get url)).print ("Failed downloading " ++ url ++ " with status code "
            ++ toString resp.StatusCode ++ ". Retrying\n"), out, ""⟩) := by
  simp [downloadAttempt, hreq, hget, h404, h200]

theorem attempt_notFound (env : Env) (url : String) (w : World) (out : File) (cs : String)
    (resp : Response) (hreq : env.newRequestErr url = none)
    (hget : env.get w.requests.length = .ok resp) (h404 : resp.StatusCode = 404) :
    downloadAttempt env url ⟨w, out, cs⟩
      = (some (errorsNew "not found"), ⟨w.send (.get url), out, ""⟩) := by
  simp [downloadAttempt, hreq, hget, h404]

theorem attempt_connect (env : Env) (url : String) (w : World) (out : File) (cs : String)
    (e : GoError) (hreq : env.newRequestErr url = none)
    (hget : env.get w.requests.length = .error e) :
    downloadAttempt env url ⟨w, out, cs⟩
      = (some (errorfW ("failed to get url " ++ url ++ ": ") e), ⟨w.send (.get url), out, ""⟩) := by
  simp [downloadAttempt, hreq, hget]

theorem attempt_ok (env : Env) (url : String) (w : World) (out : File) (cs : String)
    (resp : Response) (hreq : env.newRequestErr url = none)
    (hget : env.get w.requests.length = .ok resp) (h200 : resp.StatusCode = 200)
    (hbody : resp.Body.err = none) :
    downloadAttempt env url ⟨w, out, cs⟩
      = (none,
          ⟨(fileWrite ((w.send (.get url)).print ("Downloading " ++ urlForLog env url ++ "\n"))
              out resp.Body.data).1,
            (fileWrite ((w.send (.get url)).print ("Downloading " ++ urlForLog env url ++ "\n"))
              out resp.Body.data).2,
            hexEncode (env.sha256 resp.Body.data)⟩) := by
  simp [downloadAttempt, hreq, hget, h200, hbody]

/-- After `j` attempts answered by statuses other than 200 and 404, with at least `j`
retries left, the loop is about to make attempt `j + 1`, having sent `j` GET requests
and logged `j` retryable errors. -/
theorem retryLoop_status_prefix (env : Env) (url : String) (out : File)
    (hreq : env.newRequestErr url = none) :
    ∀ (j r : Nat) (log : List GoError) (w : World) (cs : String), j ≤ r →
      (∀ i, i < j → ∃ resp, env.get (w.requests.length + i) = .ok resp
        ∧ resp.StatusCode ≠ 404 ∧ resp.StatusCode ≠ 200) →
      ∃ w1 cs1,
        retryLoop (downloadAttempt env url) retryIfStatus (fun s => { s with w := s.w.sleep })
            r log ⟨w, out, cs⟩
          = retryLoop (downloadAttempt env url) retryIfStatus
              (fun s => { s with w := s.w.sleep }) (r - j)
              (log ++ List.replicate j (errorsNew "statusCode != 200")) ⟨w1, out, cs1⟩
        ∧ w1.requests = w.requests ++ List.replicate j (.get url)
        ∧ w1.fs = w.fs := by
  intro j
  induction j with
  | zero =>
    intro r log w cs _ _
    exact ⟨w, cs, by simp, by simp, rfl⟩
  | succ j ih =>
    intro r log w cs hjr hresp
    obtain ⟨r1, rfl⟩ : ∃ r1, r = r1 + 1 := ⟨r - 1, by omega⟩
    obtain ⟨resp, hget, h404, h200⟩ := hresp 0 (by omega)
    rw [Nat.add_zero] at hget
    have hstep := attempt_status env url w out cs resp hreq hget h404 h200
    obtain ⟨w1, cs1, hloop, hreqs, hfs⟩ := ih r1
      (log ++ [errorsNew "statusCode != 200"])
      (((w.send (.get url)).print ("Failed downloading " ++ url ++ " with status code "
            ++ toString resp.StatusCode ++ ". Retrying\n")).sleep) "" (by omega)
      (by
        intro i hi
        obtain ⟨resp2, hg2, ha, hb⟩ := hresp (i + 1) (by omega)
        refine ⟨resp2, ?_, ha, hb⟩
        rw [← hg2]
        simp [World.sleep, World.print, World.send]
        ring_nf)
    refine ⟨w1, cs1, ?_, ?_, ?_⟩
    · rw [retryLoop, hstep]
      simp only [retryIfStatus_status, if_true]
      rw [hloop]
      simp [List.replicate_succ]
    · rw [hreqs]
      simp [World.sleep, World.print, World.send, List.replicate_succ]
    · rw [hfs]
      simp [World.sleep, World.print, World.send]

theorem retryLoop_ok {σ : Type} (f : σ → Option GoError × σ) (retryIf : GoError → Bool)
    (delay : σ → σ) (n : Nat) (log : List GoError) (s s1 : σ) (h : f s = (none, s1)) :
    retryLoop f retryIf delay n log s = (none, s1) := by
  cases n <;> simp [retryLoop, h]

theorem retryLoop_stop {σ : Type} (f : σ → Option GoError × σ) (retryIf : GoError → Bool)
    (delay : σ → σ) (n : Nat) (log : List GoError) (s s1 : σ) (e : GoError)
    (h : f s = (some e, s1)) (hr : retryIf e = false) :
    retryLoop f retryIf delay n log s = (some (log ++ [e]), s1) := by
  cases n <;> simp [retryLoop, h, hr]

theorem retryLoop_last {σ : Type} (f : σ → Option GoError × σ) (retryIf : GoError → Bool)
    (delay : σ → σ) (log : List GoError) (s s1 : σ) (e : GoError)
    (h : f s = (some e, s1)) :
    retryLoop f retryIf delay 0 log s = (some (log ++ [e]), s1) := by
  simp [retryLoop, h]

/-- The download succeeds at attempt `k` when the first `k - 1` answers are statuses
other than 200 and 404 and answer `k` is a 200 whose body copies cleanly. -/
theorem download_succeeds_at (env : Env) (url : String) (out : File) (w : World)
    (hreq : env.newRequestErr url = none) (k : Nat) (resp : Response)
    (hk1 : 1 ≤ k) (hk5 : k ≤ RetryAttempts)
    (hfail : ∀ i, i < k - 1 → ∃ r, env.get (w.requests.length + i) = .ok r
      ∧ r.StatusCode ≠ 404 ∧ r.StatusCode ≠ 200)
    (hget : env.get (w.requests.length + (k - 1)) = .ok resp)
    (h200 : resp.StatusCode = 200) (hbody : resp.Body.err = none) :
    (downloadFileFromURL env out url w).1 = .ok (hexEncode (env.sha256 resp.Body.data))
    ∧ (downloadFileFromURL env out url w).2.requests
        = w.requests ++ List.replicate k (.get url) := by
  have hk5' : k ≤ 5 := hk5
  obtain ⟨w1, cs1, hloop, hreqs, _⟩ :=
    retryLoop_status_prefix env url out hreq (k - 1) 4 [] w "" (by omega) hfail
  have hlen : w1.requests.length = w.requests.length + (k - 1) := by
    rw [hreqs]; simp
  have hstep := attempt_ok env url w1 out cs1 resp hreq (by rw [hlen]; exact hget) h200 hbody
  have hfin := retryLoop_ok (downloadAttempt env url) retryIfStatus
    (fun s => { s with w := s.w.sleep }) (4 - (k - 1))
    ([] ++ List.replicate (k - 1) (errorsNew "statusCode != 200")) _ _ hstep
  have hrun : retryLoop (downloadAttempt env url) retryIfStatus
      (fun s => { s with w := s.w.sleep }) (RetryAttempts - 1) []
      { w := w, out := out, checksum := "" } = _ := hloop.trans hfin
  unfold downloadFileFromURL
  rw [hrun]
  refine ⟨rfl, ?_⟩
  simp only [fileWrite_requests, World.print, World.send, hreqs]
  have hkk : k = (k - 1) + 1 := by omega
  conv_rhs => rw [hkk, List.replicate_succ']
  simp

/-- A first answer of 404 ends the download at once with the bare `not found` error. -/
theorem download_notFound (env : Env) (url : String) (out : File) (w : World)
    (hreq : env.newRequestErr url = none) (resp : Response)
    (hget : env.get w.requests.length = .ok resp) (h404 : resp.StatusCode = 404) :
    downloadFileFromURL env out url w = (.error (errorsNew "not found"), w.send (.get url)) := by
  have hstep := attempt_notFound env url w out "" resp hreq hget h404
  have hrun := retryLoop_stop (downloadAttempt env url) retryIfStatus
    (fun s => { s with w := s.w.sleep }) (RetryAttempts - 1) [] _ _ _ hstep retryIfStatus_notFound
  unfold downloadFileFromURL
  rw [hrun]
  rfl

/-- Five answers that are statuses other than 200 and 404 use up the budget: five GET
requests, then the wrapped `retry.Error`. -/
theorem download_exhausts (env : Env) (url : String) (out : File) (w : World)
    (hreq : env.newRequestErr url = none)
    (hfail : ∀ i, i < RetryAttempts → ∃ r, env.get (w.requests.length + i) = .ok r
      ∧ r.StatusCode ≠ 404 ∧ r.StatusCode ≠ 200) :
    (downloadFileFromURL env out url w).1
        = .error (errorfW ("failed downloading URL " ++ goQuote env.isPrint url ++ ". Error ")
            (retryError (List.replicate 5 (errorsNew "statusCode != 200"))))
    ∧ (downloadFileFromURL env out url w).2.requests
        = w.requests ++ List.replicate 5 (.get url) := by
  have hfail' : ∀ i, i < 5 → ∃ r, env.get (w.requests.length + i) = .ok r
      ∧ r.StatusCode ≠ 404 ∧ r.StatusCode ≠ 200 := hfail
  obtain ⟨w1, cs1, hloop, hreqs, _⟩ :=
    retryLoop_status_prefix env url out hreq 4 4 [] w "" (le_refl _)
      (fun i hi => hfail' i (by omega))
  have hlen : w1.requests.length = w.requests.length + 4 := by
    rw [hreqs]; simp
  obtain ⟨r5, hget5, h404, h200⟩ := hfail' 4 (by omega)
  have hstep := attempt_status env url w1 out cs1 r5 hreq (by rw [hlen]; exact hget5) h404 h200
  have hfin := retryLoop_last (downloadAttempt env url) retryIfStatus
    (fun s => { s with w := s.w.sleep })
    ([] ++ List.replicate 4 (errorsNew "statusCode != 200")) _ _ _ hstep
  have hrun : retryLoop (downloadAttempt env url) retryIfStatus
      (fun s => { s with w := s.w.sleep }) (RetryAttempts - 1) []
      { w := w, out := out, checksum := "" } = _ := hloop.trans hfin
  have hlog : ([] ++ List.replicate 4 (errorsNew "statusCode != 200")
      ++ [errorsNew "statusCode != 200"]) = List.replicate 5 (errorsNew "statusCode != 200") := rfl
  have hfind : (List.replicate 5 (errorsNew "statusCode != 200")).find?
      (fun e => e.Error == "not found") = none := rfl
  unfold downloadFileFromURL
  rw [hrun, hlog]
  simp only [hfind]
  refine ⟨trivial, ?_⟩
  simp [World.print, World.send, hreqs, List.replicate_succ']

theorem goQuote_plain (isPrint : Char → Bool) (s : String) (h : ∀ c ∈ s.data, plainChar c) :
    goQuote isPrint s = "\"" ++ s ++ "\"" := by
  have hflat : ∀ l : List Char, (∀ c ∈ l, plainChar c) → l.flatMap (quoteRune isPrint) = l := by
    intro l
    induction l with
    | nil => intro _; rfl
    | cons c t ih =>
      intro hl
      have hc := hl c (List.mem_cons_self _ _)
      have hq : quoteRune isPrint c = [c] := by
        obtain ⟨h1, h2, h3, h4⟩ := hc
        simp [quoteRune, h1, h2, h3, h4]
      rw [List.flatMap_cons, hq, ih (fun x hx => hl x (List.mem_cons_of_mem _ hx))]
      rfl
  unfold goQuote
  rw [hflat s.data h]
  apply String.ext
  simp

theorem hexValue_hexDigit (n : Nat) (h : n < 16) : hexValue (hexDigit n) = some n := by
  have key : ∀ m : Fin 16, hexValue (hexDigit m.val) = some m.val := by decide
  exact key ⟨n, h⟩

theorem hexDigit_lower (n : Nat) (h : n < 16) : hexDigit n ∈ "0123456789abcdef".data := by
  have key : ∀ m : Fin 16, hexDigit m.val ∈ "0123456789abcdef".data := by decide
  exact key ⟨n, h⟩

theorem hexEncode_cons (b : Byte) (bs : Bytes) :
    (hexEncode (b :: bs)).data
      = hexDigit (b.val / 16) :: hexDigit (b.val % 16) :: (hexEncode bs).data := by
  simp [hexEncode]

theorem hexEncode_length (bs : Bytes) : (hexEncode bs).length = 2 * bs.length := by
  induction bs with
  | nil => rfl
  | cons b bs ih =>
    have h := congrArg List.length (hexEncode_cons b bs)
    simp only [List.length_cons] at h
    change (hexEncode (b :: bs)).data.length = _
    rw [h]
    change (hexEncode bs).data.length = _ at ih
    rw [ih]
    simp only [List.length_cons]
    omega

theorem hexEncode_lower (bs : Bytes) :
    ∀ c ∈ (hexEncode bs).data, c ∈ "0123456789abcdef".data := by
  induction bs with
  | nil => intro c hc; simp [hexEncode] at hc
  | cons b bs ih =>
    intro c hc
    rw [hexEncode_cons] at hc
    rcases List.mem_cons.1 hc with rfl | hc
    · exact hexDigit_lower _ (by omega)
    · rcases List.mem_cons.1 hc with rfl | hc
      · exact hexDigit_lower _ (by omega)
      · exact ih c hc

theorem hexDecode_hexEncode (bs : Bytes) : hexDecodeLower (hexEncode bs).data = some bs := by
  induction bs with
  | nil => rfl
  | cons b bs ih =>
    rw [hexEncode_cons, hexDecodeLower, hexValue_hexDigit _ (by omega),
      hexValue_hexDigit _ (by omega), ih]
    simp only [Option.some.injEq, List.cons.injEq, and_true]
    apply Fin.ext
    simp only
    omega

theorem osCreate_ok (env : Env) (path : String) (w w1 : World) (out : File)
    (h : osCreate env path w = (.ok out, w1)) :
    out = ⟨path, 0⟩ ∧ w1 = w.setNode path (.file []) := by
  unfold osCreate at h
  split at h
  · simp at h
  · split at h
    · simp at h
    · simp only [Prod.mk.injEq, Except.ok.injEq] at h
      exact ⟨h.1.symm, h.2.symm⟩

theorem osCreate_error (env : Env) (path : String) (w w1 : World) (e : GoError)
    (h : osCreate env path w = (.error e, w1)) : w1 = w := by
  unfold osCreate at h
  split at h
  · simp only [Prod.mk.injEq] at h; exact h.2.symm
  · split at h
    · simp only [Prod.mk.injEq] at h; exact h.2.symm
    · simp at h

theorem writeAt_empty (bs : Bytes) : writeAt [] 0 bs = bs := by
  simp [writeAt]

/-- One attempt either fails, leaving the file and the handle as they were whenever the
error is retryable, or is a 200 whose body was copied in full. -/
theorem attempt_cases (env : Env) (url : String) (s : DlState) :
    (∃ e s1, downloadAttempt env url s = (some e, s1)
      ∧ (retryIfStatus e = true → s1.w.fs = s.w.fs ∧ s1.out = s.out))
    ∨ (∃ resp, env.get s.w.requests.length = .ok resp ∧ resp.StatusCode = 200
      ∧ resp.Body.err = none
      ∧ downloadAttempt env url s = (none,
          ⟨(fileWrite ((s.w.send (.get url)).print ("Downloading " ++ urlForLog env url ++ "\n"))
              s.out resp.Body.data).1,
            (fileWrite ((s.w.send (.get url)).print ("Downloading " ++ urlForLog env url ++ "\n"))
              s.out resp.Body.data).2,
            hexEncode (env.sha256 resp.Body.data)⟩)) := by
  have pack : ∀ e, (downloadAttempt env url s).1 = some e →
      (retryIfStatus e = true → (downloadAttempt env url s).2.w.fs = s.w.fs
        ∧ (downloadAttempt env url s).2.out = s.out) →
      ∃ e s1, downloadAttempt env url s = (some e, s1)
        ∧ (retryIfStatus e = true → s1.w.fs = s.w.fs ∧ s1.out = s.out) :=
    fun e h1 h2 => ⟨e, (downloadAttempt env url s).2, Prod.ext h1 rfl, h2⟩
  cases hreq : env.newRequestErr url with
  | some e0 =>
    left
    apply pack (errorfW ("failed create request " ++ url ++ ": ") e0)
    · simp [downloadAttempt, hreq]
    · intro _; simp [downloadAttempt, hreq]
  | none =>
    cases hget : env.get s.w.requests.length with
    | error e0 =>
      left
      apply pack (errorfW ("failed to get url " ++ url ++ ": ") e0)
      · simp [downloadAttempt, hreq, hget]
      · intro _; simp [downloadAttempt, hreq, hget, World.send]
    | ok resp =>
      by_cases h404 : resp.StatusCode = 404
      · left
        apply pack (errorsNew "not found")
        · simp [downloadAttempt, hreq, hget, h404]
        · intro _; simp [downloadAttempt, hreq, hget, h404, World.send]
      · by_cases h200 : resp.StatusCode = 200
        · cases hbody : resp.Body.err with
          | some e0 =>
            left
            apply pack (errorfW ("failed to copy body to file " ++ s.out.name ++ ": ") e0)
            · simp [downloadAttempt, hreq, hget, h200, hbody]
            · intro hr
              rw [retryIfStatus_errorfW _ e0
                (head_append_lit _ _ _ (head_append_lit _ _ _ (by decide)))] at hr
              exact absurd hr (by decide)
          | none =>
            right
            exact ⟨resp, rfl, h200, hbody, by simp [downloadAttempt, hreq, hget, h200, hbody]⟩
        · left
          apply pack (errorsNew "statusCode != 200")
          · simp [downloadAttempt, hreq, hget, h404, h200]
          · intro _; simp [downloadAttempt, hreq, hget, h404, h200, World.send, World.print]

/-- When the retry loop ends in success on a file that was empty with the handle at
offset 0, the file holds exactly the body of the last answer, a 200, and the checksum
is the digest of that body. -/
theorem retryLoop_success_file (env : Env) (url : String) :
    ∀ (r : Nat) (log : List GoError) (s s1 : DlState),
      s.w.fs s.out.name = some (.file []) → s.out.offset = 0 →
      retryLoop (downloadAttempt env url) retryIfStatus (fun s => { s with w := s.w.sleep })
        r log s = (none, s1) →
      ∃ resp, env.get (s1.w.requests.length - 1) = .ok resp ∧ resp.StatusCode = 200
        ∧ resp.Body.err = none
        ∧ s1.w.requests.getLast? = some (.get url)
        ∧ s1.w.fs s.out.name = some (.file resp.Body.data)
        ∧ s1.checksum = hexEncode (env.sha256 resp.Body.data) := by
  intro r
  induction r with
  | zero =>
    intro log s s1 hfile hoff hrun
    rcases attempt_cases env url s with ⟨e, s2, hstep, _⟩ | ⟨resp, hget, h200, hbody, hstep⟩
    · rw [retryLoop_last _ _ _ _ _ _ _ hstep] at hrun
      simp at hrun
    · rw [retryLoop_ok _ _ _ _ _ _ _ hstep] at hrun
      simp only [Prod.mk.injEq, true_and] at hrun
      subst hrun
      refine ⟨resp, ?_, h200, hbody, ?_, ?_, rfl⟩
      · simp [fileWrite_requests, World.print, World.send, hget]
      · simp [fileWrite_requests, World.print, World.send]
      · have hf : ((s.w.send (.get url)).print
            ("Downloading " ++ urlForLog env url ++ "\n")).fs s.out.name = some (.file []) := hfile
        simp [fileWrite, hf, hoff, World.setNode, writeAt_empty]
  | succ r ih =>
    intro log s s1 hfile hoff hrun
    rcases attempt_cases env url s with ⟨e, s2, hstep, hkeep⟩ | ⟨resp, hget, h200, hbody, hstep⟩
    · rw [retryLoop, hstep] at hrun
      by_cases hr : retryIfStatus e = true
      · simp only [hr, if_true] at hrun
        obtain ⟨hfs, hout⟩ := hkeep hr
        have := ih _ _ _ (by simp [World.sleep, hfs, hout, hfile]) (by simp [hout, hoff]) hrun
        simpa [hout] using this
      · simp [hr] at hrun
    · rw [retryLoop_ok _ _ _ _ _ _ _ hstep] at hrun
      simp only [Prod.mk.injEq, true_and] at hrun
      subst hrun
      refine ⟨resp, ?_, h200, hbody, ?_, ?_, rfl⟩
      · simp [fileWrite_requests, World.print, World.send, hget]
      · simp [fileWrite_requests, World.print, World.send]
      · have hf : ((s.w.send (.get url)).print
            ("Downloading " ++ urlForLog env url ++ "\n")).fs s.out.name = some (.file []) := hfile
        simp [fileWrite, hf, hoff, World.setNode, writeAt_empty]

/-- Claim C9. Whenever `downloadFile` succeeds, the last request sent is the GET for the
URL, its answer is a 200 whose body was read to the end, the file at the local path holds
exactly the bytes of that body, and the returned string is the lowercase hexadecimal
SHA-256 digest of exactly those bytes: it is `%x` of the digest, it has two characters per
digest byte, every character is one of `0123456789abcdef`, and read back as lowercase
hexadecimal (high nibble first) it is the digest. -/
theorem downloadFile_holds_final_body (env : Env) (path url : String) (w : World) (cs : String)
    (h : (downloadFile env path url w).1 = .ok cs) :
    ∃ resp, env.get ((downloadFile env path url w).2.requests.length - 1) = .ok resp
      ∧ resp.StatusCode = 200 ∧ resp.Body.err = none
      ∧ (downloadFile env path url w).2.requests.getLast? = some (.get url)
      ∧ (downloadFile env path url w).2.fs path = some (.file resp.Body.data)
      ∧ cs = hexEncode (env.sha256 resp.Body.data)
      ∧ cs.length = 2 * (env.sha256 resp.Body.data).length
      ∧ (∀ c ∈ cs.data, c ∈ "0123456789abcdef".data)
      ∧ hexDecodeLower cs.data = some (env.sha256 resp.Body.data) := by
  unfold downloadFile at h ⊢
  cases hc : osCreate env path w with
  | mk r w1 =>
    cases r with
    | error e => rw [hc] at h; simp at h
    | ok out =>
      obtain ⟨hout, hw1⟩ := osCreate_ok env path w w1 out hc
      rw [hc] at h
      simp only at h ⊢
      unfold downloadFileFromURL at h ⊢
      cases hl : retryLoop (downloadAttempt env url) retryIfStatus
          (fun s => { s with w := s.w.sleep }) (RetryAttempts - 1) []
          { w := w1, out := out, checksum := "" } with
      | mk res s1 =>
        cases res with
        | some log =>
          rw [hl] at h
          simp only at h
          split at h <;> simp at h
        | none =>
          rw [hl] at h
          simp only at h ⊢
          obtain ⟨resp, h1, h2, h3, h4, h5, h6⟩ := retryLoop_success_file env url _ _ _ _
            (by subst hout; subst hw1; simp [World.setNode]) (by subst hout; rfl) hl
          simp only [Except.ok.injEq] at h
          subst hout
          have hcs : cs = hexEncode (env.sha256 resp.Body.data) := h ▸ h6
          exact ⟨resp, h1, h2, h3, h4, h5, hcs, hcs ▸ hexEncode_length _,
            hcs ▸ hexEncode_lower _, hcs ▸ hexDecode_hexEncode _⟩

theorem probeLoop_fs (env : Env) : ∀ (urls : List String) (w : World),
    (probeLoop env urls w).2.fs = w.fs := by
  intro urls
  induction urls with
  | nil => intro w; rfl
  | cons u rest ih =>
    intro w
    unfold probeLoop
    split
    · rfl
    · split
      · rfl
      · split
        · rw [ih]; rfl
        · split <;> rfl

theorem getURLLocation_fs (env : Env) (org name version : String) (typ : PluginType)
    (w : World) : (getURLLocation env org name version typ w).2.fs = w.fs := by
  unfold getURLLocation
  have h := probeLoop_fs env (candidateURLs env org name version typ) w
  split <;> rename_i heq <;> rw [heq] at h <;> exact h

theorem attempt_fs_other (env : Env) (url : String) (s : DlState) (p : String)
    (hp : p ≠ s.out.name) :
    (downloadAttempt env url s).2.w.fs p = s.w.fs p
    ∧ (downloadAttempt env url s).2.out.name = s.out.name := by
  unfold downloadAttempt
  simp only
  split
  · exact ⟨rfl, rfl⟩
  · split
    · exact ⟨rfl, rfl⟩
    · split
      · exact ⟨rfl, rfl⟩
      · split
        · exact ⟨rfl, rfl⟩
        · split
          · exact ⟨by rw [fileWrite_fs_other _ _ _ _ hp]; rfl, fileWrite_name _ _ _⟩
          · exact ⟨by rw [fileWrite_fs_other _ _ _ _ hp]; rfl, fileWrite_name _ _ _⟩

theorem retryLoop_fs_other (env : Env) (url : String) (p : String) :
    ∀ (r : Nat) (log : List GoError) (s : DlState), p ≠ s.out.name →
      (retryLoop (downloadAttempt env url) retryIfStatus (fun s => { s with w := s.w.sleep })
        r log s).2.w.fs p = s.w.fs p := by
  intro r
  induction r with
  | zero =>
    intro log s hp
    have h := attempt_fs_other env url s p hp
    unfold retryLoop
    split <;> rename_i heq <;> rw [heq] at h <;> exact h.1
  | succ r ih =>
    intro log s hp
    have h := attempt_fs_other env url s p hp
    unfold retryLoop
    split
    · rename_i heq; rw [heq] at h; exact h.1
    · rename_i heq
      rw [heq] at h
      split
      · rw [ih]
        · exact h.1
        · simp only; rw [h.2]; exact hp
      · exact h.1

theorem downloadFileFromURL_fs_other (env : Env) (out : File) (url : String) (w : World)
    (p : String) (hp : p ≠ out.name) :
    (downloadFileFromURL env out url w).2.fs p = w.fs p := by
  have h := retryLoop_fs_other env url p (RetryAttempts - 1) [] ⟨w, out, ""⟩ hp
  unfold downloadFileFromURL
  split
  · rename_i heq
    rw [heq] at h
    split <;> exact h
  · rename_i heq
    rw [heq] at h
    exact h

theorem downloadFile_fs_other (env : Env) (path url : String) (w : World) (p : String)
    (hp : p ≠ path) : (downloadFile env path url w).2.fs p = w.fs p := by
  unfold downloadFile
  split
  · rename_i e w1 heq
    rw [osCreate_error env path w w1 e heq]
  · rename_i out w1 heq
    obtain ⟨hout, hw1⟩ := osCreate_ok env path w w1 out heq
    subst hout; subst hw1
    rw [downloadFileFromURL_fs_other _ _ _ _ _ hp]
    simp [World.setNode, hp]

theorem hubAsset_fs (env : Env) (ops : HubDownloadOptions) (w : World) :
    (downloadPluginAssetFromHub env ops w).2.fs = w.fs := by
  unfold downloadPluginAssetFromHub
  split
  · rfl
  · split
    · simp only; split <;> rfl
    · simp only; split <;> rfl

theorem verifyChecksum_fs (c d : String) (w : World) :
    (verifyChecksum c d w).2.fs = w.fs := by
  unfold verifyChecksum
  split
  · rfl
  · split <;> rfl

theorem zip_ne (p : String) : p ≠ p ++ ".zip" := by
  intro h
  have h2 := congrArg String.length h
  simp at h2
  exact absurd h2 (by decide)

/-- What `writeEntry` can do: succeed, fail to create the file and change nothing, or
fail while copying or closing, after the file was created and the delivered bytes
written. -/
theorem writeEntry_spec (env : Env) (p : String) (f : Stream) (w w1 : World)
    (res : Option GoError) (h : writeEntry env p f w = (res, w1)) :
    (res = none ∧ f.err = none ∧ w1.fs p = some (.file f.data))
    ∨ (∃ e, res = some (errorfW ("failed to create file " ++ p ++ ": ") e) ∧ w1 = w)
    ∨ (∃ e, f.err = some e ∧ res = some (errorfW "failed to copy body to file: " e)
        ∧ w1.fs p = some (.file f.data))
    ∨ (∃ e, f.err = none ∧ env.closeErr p = some e
        ∧ res = some (errorfW "failed to close file: " e)
        ∧ w1.fs p = some (.file f.data)) := by
  unfold writeEntry at h
  split at h
  · rename_i e w2 heq
    simp only [Prod.mk.injEq] at h
    right; left
    exact ⟨e, h.1.symm, by rw [← h.2, osCreate_error env p w w2 e heq]⟩
  · rename_i out w2 heq
    obtain ⟨hout, hw2⟩ := osCreate_ok env p w w2 out heq
    subst hout; subst hw2
    have hfs : (fileWrite (w.setNode p (.file [])) ⟨p, 0⟩ f.data).1.fs p
        = some (.file f.data) := by
      simp [fileWrite, World.setNode, writeAt_empty]
    simp only at h
    cases he : f.err with
    | some e =>
      rw [he] at h
      simp only [Prod.mk.injEq] at h
      right; right; left
      exact ⟨e, rfl, h.1.symm, by rw [← h.2]; exact hfs⟩
    | none =>
      rw [he] at h
      simp only at h
      cases hc : env.closeErr p with
      | some e =>
        rw [hc] at h
        simp only [Prod.mk.injEq] at h
        right; right; right
        exact ⟨e, rfl, rfl, h.1.symm, by rw [← h.2]; exact hfs⟩
      | none =>
        rw [hc] at h
        simp only [Prod.mk.injEq] at h
        left
        exact ⟨h.1.symm, rfl, by rw [← h.2]; exact hfs⟩

theorem pathClear_of_fs (env : Env) (w1 w2 : World) (p : String) (h : w2.fs p = w1.fs p)
    (hc : pathClear env w1 p) : pathClear env w2 p := by
  unfold pathClear at hc ⊢
  rw [h]
  exact hc

theorem pathClear_noFile (env : Env) (w : World) (p : String) (hc : pathClear env w p) :
    ∀ d, w.fs p ≠ some (.file d) := by
  intro d hd
  rcases hc with h | ⟨_, h⟩ <;> rw [h] at hd <;> simp at hd

theorem pathClear_absent (env : Env) (w : World) (p : String) (hc : pathClear env w p)
    (hdir : env.dir p ≠ p) : w.exists_ p = false := by
  rcases hc with h | ⟨h, _⟩
  · simp [World.exists_, h]
  · exact absurd h hdir

theorem osMkdirAll_clear (env : Env) (w : World) (p : String) (h : w.fs p = none) :
    pathClear env (osMkdirAll env (env.dir p) w).2 p := by
  unfold osMkdirAll
  split
  · exact Or.inl h
  · split
    · exact Or.inl h
    · exact Or.inl h
    · by_cases hd : env.dir p = p
      · right
        exact ⟨hd, by simp [World.setNode, hd]⟩
      · left
        have hd2 : p ≠ env.dir p := fun x => hd x.symm
        simp [World.setNode, hd2, h]

theorem writeEntry_fs_other (env : Env) (p q : String) (f : Stream) (w : World) (hq : q ≠ p) :
    (writeEntry env p f w).2.fs q = w.fs q := by
  unfold writeEntry
  split
  · rename_i e w2 heq
    rw [osCreate_error env p w w2 e heq]
  · rename_i out w2 heq
    obtain ⟨hout, hw2⟩ := osCreate_ok env p w w2 out heq
    subst hout; subst hw2
    have hfs : (fileWrite (w.setNode p (.file [])) ⟨p, 0⟩ f.data).1.fs q = w.fs q := by
      rw [fileWrite_fs_other _ _ _ _ hq]
      simp [World.setNode, hq]
    simp only
    split
    · exact hfs
    · split <;> exact hfs

theorem zipOpenReader_congr (env : Env) (path : String) (w1 w2 : World)
    (h : w1.fs path = w2.fs path) : zipOpenReader env path w1 = zipOpenReader env path w2 := by
  unfold zipOpenReader
  rw [h]

theorem take_append_lit (a x : String) (n : Nat) (h : n ≤ a.length) :
    (a ++ x).data.take n = a.data.take n := by
  rw [String.data_append]
  exact List.take_append_of_le_length h

theorem errorfW_text (a : String) (x : GoError) : (errorfW a x).Error = a ++ x.Error := rfl

theorem errorfW_cause (a b : String) (x y : GoError) (h : errorfW a x = errorfW b y) : x = y := by
  simp only [errorfW, GoError.mk.injEq, List.cons.injEq, and_true] at h
  exact h.2

theorem not_copyOrClose_errorsNew (m : String) : ¬ copyOrCloseFailure (errorsNew m) := by
  rintro (⟨e, h⟩ | ⟨e, h⟩) <;> simp [errorsNew, errorfW] at h

/-- An error whose text does not begin `failed to co` or `failed to cl` is neither the
copy failure nor the close failure. -/
theorem not_copyOrClose_of_text (err : GoError)
    (h1 : err.Error.data.take 12 ≠ "failed to co".data)
    (h2 : err.Error.data.take 12 ≠ "failed to cl".data) : ¬ copyOrCloseFailure err := by
  rintro (⟨e, h⟩ | ⟨e, h⟩)
  · apply h1
    rw [h, errorfW_text, take_append_lit _ _ 12 (by decide)]
    decide
  · apply h2
    rw [h, errorfW_text, take_append_lit _ _ 12 (by decide)]
    decide

/-- A wrapped error whose fixed leading text is at least twelve characters long and
begins otherwise than the copy and close failures. -/
theorem not_copyOrClose_lit (lit : String) (x : GoError) (hlen : 12 ≤ lit.length)
    (h1 : lit.data.take 12 ≠ "failed to co".data)
    (h2 : lit.data.take 12 ≠ "failed to cl".data) : ¬ copyOrCloseFailure (errorfW lit x) := by
  apply not_copyOrClose_of_text
  · rw [errorfW_text, take_append_lit _ _ 12 hlen]; exact h1
  · rw [errorfW_text, take_append_lit _ _ 12 hlen]; exact h2

theorem not_copyOrClose_lit3 (lit v s : String) (x : GoError) (hlen : 12 ≤ lit.length)
    (h1 : lit.data.take 12 ≠ "failed to co".data)
    (h2 : lit.data.take 12 ≠ "failed to cl".data) :
    ¬ copyOrCloseFailure (errorfW (lit ++ v ++ s) x) := by
  have hl2 : 12 ≤ (lit ++ v).length := by rw [String.length_append]; omega
  have hl3 : 12 ≤ (lit ++ v ++ s).length := by rw [String.length_append]; omega
  apply not_copyOrClose_of_text
  · rw [errorfW_text, take_append_lit _ _ 12 hl3, take_append_lit _ _ 12 hl2,
      take_append_lit _ _ 12 hlen]
    exact h1
  · rw [errorfW_text, take_append_lit _ _ 12 hl3, take_append_lit _ _ 12 hl2,
      take_append_lit _ _ 12 hlen]
    exact h2

theorem copy_ne_close (x y : GoError) :
    errorfW "failed to copy body to file: " x ≠ errorfW "failed to close file: " y := by
  intro h
  have h2 := congrArg (fun e => e.Error.data.take 12) h
  simp only [errorfW_text] at h2
  rw [take_append_lit _ _ 12 (by decide), take_append_lit _ _ 12 (by decide)] at h2
  exact absurd h2 (by decide)

theorem not_exists_absent (w : World) (p : String) (h : w.exists_ p = false) :
    w.fs p = none := by
  cases hfs : w.fs p with
  | none => rfl
  | some n => simp [World.exists_, hfs] at h

/-- The extraction of the public-source flow either fails, with an error that is neither
the copy nor the close failure, without touching the filesystem, or is a `writeEntry` of
an entry of the opened archive on the same world. -/
theorem extractGithub_shape (env : Env) (p org name url : String) (w w1 : World)
    (res : Option GoError) (h : extractGithub env p org name url w = (res, w1)) :
    (∃ e, res = some e ∧ ¬ copyOrCloseFailure e ∧ w1 = w)
    ∨ (∃ archive nm f, zipOpenReader env (p ++ ".zip") w = .ok archive
        ∧ archiveOpen archive nm = .ok f ∧ writeEntry env p f w = (res, w1)) := by
  unfold extractGithub at h
  cases hz : zipOpenReader env (p ++ ".zip") w with
  | error e =>
    rw [hz] at h
    simp only [Prod.mk.injEq] at h
    exact Or.inl ⟨_, h.1.symm,
      not_copyOrClose_lit _ e (by decide) (by decide) (by decide), h.2.symm⟩
  | ok archive =>
    rw [hz] at h
    simp only at h
    cases hp : pathInArchive org name url with
    | none =>
      rw [hp] at h
      simp only [Prod.mk.injEq] at h
      exact Or.inl ⟨_, h.1.symm, not_copyOrClose_errorsNew _, h.2.symm⟩
    | some q =>
      rw [hp] at h
      simp only at h
      cases ho : archiveOpen archive (WithBinarySuffix env q) with
      | error e =>
        rw [ho] at h
        simp only [Prod.mk.injEq] at h
        exact Or.inl ⟨_, h.1.symm,
          not_copyOrClose_lit3 _ name ": " e (by decide) (by decide) (by decide), h.2.symm⟩
      | ok f =>
        rw [ho] at h
        exact Or.inr ⟨archive, _, f, rfl, ho, h⟩

theorem extractHub_shape (env : Env) (ops : HubDownloadOptions) (w w1 : World)
    (res : Option GoError) (h : extractHub env ops w = (res, w1)) :
    (∃ e, res = some e ∧ ¬ copyOrCloseFailure e ∧ w1 = w)
    ∨ (∃ archive nm f, zipOpenReader env (ops.LocalPath ++ ".zip") w = .ok archive
        ∧ archiveOpen archive nm = .ok f
        ∧ writeEntry env ops.LocalPath f w = (res, w1)) := by
  unfold extractHub at h
  cases hz : zipOpenReader env (ops.LocalPath ++ ".zip") w with
  | error e =>
    rw [hz] at h
    simp only [Prod.mk.injEq] at h
    exact Or.inl ⟨_, h.1.symm,
      not_copyOrClose_lit _ e (by decide) (by decide) (by decide), h.2.symm⟩
  | ok archive =>
    rw [hz] at h
    simp only at h
    cases ho : archiveOpen archive ("plugin-" ++ ops.PluginName ++ "-" ++ ops.PluginVersion
        ++ "-" ++ env.GOOS ++ "-" ++ env.GOARCH) with
    | error e =>
      rw [ho] at h
      simp only [Prod.mk.injEq] at h
      exact Or.inl ⟨_, h.1.symm,
        not_copyOrClose_lit _ e (by decide) (by decide) (by decide), h.2.symm⟩
    | ok f =>
      rw [ho] at h
      exact Or.inr ⟨archive, _, f, rfl, ho, h⟩

/-- A run of the public-source orchestrator that starts without the final path either
fails before the final file is opened, with an error that is neither the copy nor the
close failure and with nothing of the download at the final path, or ends in a
`writeEntry` of an archive entry, started with nothing at the final path. -/
theorem github_shape (env : Env) (p org name version : String) (typ : PluginType)
    (w w1 : World) (res : Option GoError) (hne : w.exists_ p = false)
    (h : DownloadPluginFromGithub env p org name version typ w = (res, w1)) :
    (∃ e, res = some e ∧ ¬ copyOrCloseFailure e ∧ pathClear env w1 p)
    ∨ (∃ w3 archive nm f, pathClear env w3 p
        ∧ zipOpenReader env (p ++ ".zip") w3 = .ok archive
        ∧ archiveOpen archive nm = .ok f ∧ writeEntry env p f w3 = (res, w1)) := by
  have hA := osMkdirAll_clear env w p (not_exists_absent w p hne)
  unfold DownloadPluginFromGithub at h
  simp only [hne, Bool.false_eq_true, if_false] at h
  cases h1 : osMkdirAll env (env.dir p) w with
  | mk r1 wa =>
    rw [h1] at h hA
    cases r1 with
    | some e =>
      simp only [Prod.mk.injEq] at h
      exact Or.inl ⟨_, h.1.symm,
        not_copyOrClose_lit3 _ (env.dir p) ": " e (by decide) (by decide) (by decide),
        by rw [← h.2]; exact hA⟩
    | none =>
      simp only at h
      have hB : pathClear env (getURLLocation env org name version typ wa).2 p :=
        pathClear_of_fs env wa _ p (by rw [getURLLocation_fs]) hA
      cases h2 : getURLLocation env org name version typ wa with
      | mk r2 wb =>
        rw [h2] at h hB
        cases r2 with
        | error e =>
          simp only [Prod.mk.injEq] at h
          exact Or.inl ⟨_, h.1.symm,
            not_copyOrClose_lit _ e (by decide) (by decide) (by decide),
            by rw [← h.2]; exact hB⟩
        | ok url =>
          simp only at h
          have hC : pathClear env (downloadFile env (p ++ ".zip") url wb).2 p :=
            pathClear_of_fs env wb _ p (downloadFile_fs_other _ _ _ _ _ (zip_ne p)) hB
          cases h3 : downloadFile env (p ++ ".zip") url wb with
          | mk r3 wc =>
            rw [h3] at h hC
            cases r3 with
            | error e =>
              simp only [Prod.mk.injEq] at h
              exact Or.inl ⟨_, h.1.symm,
                not_copyOrClose_lit _ e (by decide) (by decide) (by decide),
                by rw [← h.2]; exact hC⟩
            | ok cs =>
              simp only at h
              rcases extractGithub_shape env p org name url wc w1 res h with
                ⟨e, he, hl, hw⟩ | ⟨archive, nm, f, hz, ho, hf⟩
              · exact Or.inl ⟨e, he, hl, by rw [hw]; exact hC⟩
              · exact Or.inr ⟨wc, archive, nm, f, hC, hz, ho, hf⟩

theorem verifyChecksum_error (c d : String) (w w1 : World) (e : GoError)
    (h : verifyChecksum c d w = (some e, w1)) : ¬ copyOrCloseFailure e := by
  unfold verifyChecksum at h
  split at h
  · simp at h
  · split at h
    · simp only [Prod.mk.injEq, Option.some.injEq] at h
      rw [← h.1]
      exact not_copyOrClose_errorsNew _
    · simp at h

theorem hub_shape (env : Env) (ops : HubDownloadOptions)
    (w w1 : World) (res : Option GoError) (hne : w.exists_ ops.LocalPath = false)
    (h : DownloadPluginFromHub env ops w = (res, w1)) :
    (∃ e, res = some e ∧ ¬ copyOrCloseFailure e ∧ pathClear env w1 ops.LocalPath)
    ∨ (∃ w3 archive nm f, pathClear env w3 ops.LocalPath
        ∧ zipOpenReader env (ops.LocalPath ++ ".zip") w3 = .ok archive
        ∧ archiveOpen archive nm = .ok f
        ∧ writeEntry env ops.LocalPath f w3 = (res, w1)) := by
  have hA := osMkdirAll_clear env w ops.LocalPath (not_exists_absent w _ hne)
  unfold DownloadPluginFromHub at h
  simp only [hne, Bool.false_eq_true, if_false] at h
  cases h1 : osMkdirAll env (env.dir ops.LocalPath) w with
  | mk r1 wa =>
    rw [h1] at h hA
    cases r1 with
    | some e =>
      simp only [Prod.mk.injEq] at h
      exact Or.inl ⟨_, h.1.symm,
        not_copyOrClose_lit3 _ (env.dir ops.LocalPath) ": " e (by decide) (by decide)
          (by decide),
        by rw [← h.2]; exact hA⟩
    | none =>
      simp only at h
      have hB : pathClear env (downloadPluginAssetFromHub env ops wa).2 ops.LocalPath :=
        pathClear_of_fs env wa _ _ (by rw [hubAsset_fs]) hA
      cases h2 : downloadPluginAssetFromHub env ops wa with
      | mk r2 wb =>
        rw [h2] at h hB
        have early : ∀ e, ¬ copyOrCloseFailure e → (some e, wb) = (res, w1) →
            (∃ e, res = some e ∧ ¬ copyOrCloseFailure e ∧ pathClear env w1 ops.LocalPath)
            ∨ (∃ w3 archive nm f, pathClear env w3 ops.LocalPath
                ∧ zipOpenReader env (ops.LocalPath ++ ".zip") w3 = .ok archive
                ∧ archiveOpen archive nm = .ok f
                ∧ writeEntry env ops.LocalPath f w3 = (res, w1)) := by
          intro e hl he
          simp only [Prod.mk.injEq] at he
          exact Or.inl ⟨_, he.1.symm, hl, by rw [← he.2]; exact hB⟩
        cases r2 with
        | error e =>
          exact early _ (not_copyOrClose_lit _ e (by decide) (by decide) (by decide)) h
        | ok r =>
          obtain ⟨pluginAsset, statusCode⟩ := r
          simp only at h
          split at h
          · split at h
            · exact early _ (not_copyOrClose_errorsNew _) h
            · split at h
              · exact early _ (not_copyOrClose_errorsNew _) h
              · rename_i asset _
                unfold fetchHub at h
                have hC : pathClear env (downloadFile env (ops.LocalPath ++ ".zip")
                    asset.Location wb).2 ops.LocalPath :=
                  pathClear_of_fs env wb _ _
                    (downloadFile_fs_other _ _ _ _ _ (zip_ne _)) hB
                cases h3 : downloadFile env (ops.LocalPath ++ ".zip") asset.Location wb with
                | mk r3 wc =>
                  rw [h3] at h hC
                  cases r3 with
                  | error e =>
                    simp only [Prod.mk.injEq] at h
                    exact Or.inl ⟨_, h.1.symm,
                      not_copyOrClose_lit _ e (by decide) (by decide) (by decide),
                      by rw [← h.2]; exact hC⟩
                  | ok cs =>
                    simp only at h
                    have hD : pathClear env (verifyChecksum asset.Checksum cs wc).2
                        ops.LocalPath :=
                      pathClear_of_fs env wc _ _ (by rw [verifyChecksum_fs]) hC
                    cases h4 : verifyChecksum asset.Checksum cs wc with
                    | mk r4 wd =>
                      rw [h4] at h hD
                      cases r4 with
                      | some e =>
                        simp only [Prod.mk.injEq] at h
                        exact Or.inl ⟨_, h.1.symm,
                          verifyChecksum_error _ _ _ _ _ h4, by rw [← h.2]; exact hD⟩
                      | none =>
                        simp only at h
                        rcases extractHub_shape env ops wd w1 res h with
                          ⟨e, he, hl, hw⟩ | ⟨archive, nm, f, hz, ho, hf⟩
                        · exact Or.inl ⟨e, he, hl, by rw [hw]; exact hD⟩
                        · exact Or.inr ⟨wd, archive, nm, f, hD, hz, ho, hf⟩
          · split at h
            · exact early _ (not_copyOrClose_errorsNew _) h
            · split at h
              · exact early _ (not_copyOrClose_errorsNew _) h
              · split at h
                · exact early _ (not_copyOrClose_errorsNew _) h
                · exact early _ (not_copyOrClose_errorsNew _) h

theorem file_exists (w : World) (p : String) (d : Bytes) (h : w.fs p = some (.file d)) :
    w.exists_ p = true := by
  simp [World.exists_, h]

theorem github_skip (env : Env) (p org name version : String) (typ : PluginType) (w : World)
    (h : w.exists_ p = true) :
    DownloadPluginFromGithub env p org name version typ w = (none, w) := by
  simp [DownloadPluginFromGithub, h]

theorem hub_skip (env : Env) (ops : HubDownloadOptions) (w : World)
    (h : w.exists_ ops.LocalPath = true) : DownloadPluginFromHub env ops w = (none, w) := by
  simp [DownloadPluginFromHub, h]

theorem github_success_exists (env : Env) (p org name version : String) (typ : PluginType)
    (w w1 : World) (h : DownloadPluginFromGithub env p org name version typ w = (none, w1)) :
    w1.exists_ p = true := by
  cases hne : w.exists_ p with
  | true =>
    rw [github_skip env p org name version typ w hne] at h
    simp only [Prod.mk.injEq, true_and] at h
    rw [← h]; exact hne
  | false =>
    rcases github_shape env p org name version typ w w1 none hne h with
      ⟨e, he, _⟩ | ⟨w3, _, _, f, _, _, _, hf⟩
    · simp at he
    · rcases writeEntry_spec env p f w3 w1 none hf with
        ⟨_, _, hfs⟩ | ⟨e, he, _⟩ | ⟨e, _, he, _⟩ | ⟨e, _, _, he, _⟩
      · exact file_exists _ _ _ hfs
      · simp at he
      · simp at he
      · simp at he

theorem hub_success_exists (env : Env) (ops : HubDownloadOptions)
    (w w1 : World) (h : DownloadPluginFromHub env ops w = (none, w1)) :
    w1.exists_ ops.LocalPath = true := by
  cases hne : w.exists_ ops.LocalPath with
  | true =>
    rw [hub_skip env ops w hne] at h
    simp only [Prod.mk.injEq, true_and] at h
    rw [← h]; exact hne
  | false =>
    rcases hub_shape env ops w w1 none hne h with
      ⟨e, he, _⟩ | ⟨w3, _, _, f, _, _, _, hf⟩
    · simp at he
    · rcases writeEntry_spec env ops.LocalPath f w3 w1 none hf with
        ⟨_, _, hfs⟩ | ⟨e, he, _⟩ | ⟨e, _, he, _⟩ | ⟨e, _, _, he, _⟩
      · exact file_exists _ _ _ hfs
      · simp at he
      · simp at he
      · simp at he

/-- Claim C7. When the final path exists, `DownloadPluginFromGithub` and
`DownloadPluginFromHub` return success and leave the world as it is: no request is sent,
nothing is printed, the filesystem is unchanged. After a successful call of either
orchestrator the final path exists, so a second call of either one for the same path,
whatever its other arguments and whatever the network would answer, sends nothing and
returns success. -/
theorem orchestrators_skip_existing (env : Env) (localPath : String) :
    (∀ (w : World) (org name version : String) (typ : PluginType),
      w.exists_ localPath = true →
      DownloadPluginFromGithub env localPath org name version typ w = (none, w))
    ∧ (∀ (w : World) (ops : HubDownloadOptions), ops.LocalPath = localPath →
      w.exists_ localPath = true → DownloadPluginFromHub env ops w = (none, w))
    ∧ (∀ (env0 : Env) (w w1 : World) (org name version : String) (typ : PluginType),
      DownloadPluginFromGithub env0 localPath org name version typ w = (none, w1) →
      w1.exists_ localPath = true
      ∧ (∀ (org2 name2 version2 : String) (typ2 : PluginType),
          DownloadPluginFromGithub env localPath org2 name2 version2 typ2 w1 = (none, w1))
      ∧ (∀ ops2 : HubDownloadOptions, ops2.LocalPath = localPath →
          DownloadPluginFromHub env ops2 w1 = (none, w1)))
    ∧ (∀ (env0 : Env) (w w1 : World) (ops : HubDownloadOptions), ops.LocalPath = localPath →
      DownloadPluginFromHub env0 ops w = (none, w1) →
      w1.exists_ localPath = true
      ∧ (∀ (org2 name2 version2 : String) (typ2 : PluginType),
          DownloadPluginFromGithub env localPath org2 name2 version2 typ2 w1 = (none, w1))
      ∧ (∀ ops2 : HubDownloadOptions, ops2.LocalPath = localPath →
          DownloadPluginFromHub env ops2 w1 = (none, w1))) := by
  refine ⟨?_, ?_, ?_, ?_⟩
  · intro w org name version typ h
    exact github_skip env localPath org name version typ w h
  · intro w ops hp h
    subst hp
    exact hub_skip env ops w h
  · intro env0 w w1 org name version typ h
    have hex := github_success_exists env0 localPath org name version typ w w1 h
    refine ⟨hex, fun org2 name2 version2 typ2 => github_skip env _ _ _ _ _ _ hex, ?_⟩
    intro ops2 hp
    subst hp
    exact hub_skip env ops2 w1 hex
  · intro env0 w w1 ops hp h
    subst hp
    have hex := hub_success_exists env0 ops w w1 h
    refine ⟨hex, fun org2 name2 version2 typ2 => github_skip env _ _ _ _ _ _ hex, ?_⟩
    intro ops2 hp
    exact hub_skip env ops2 w1 (hp ▸ hex)

theorem find_notFound_status (j : Nat) (tail : List GoError)
    (ht : tail.find? (fun e => e.Error == "not found") = none) :
    (List.replicate j (errorsNew "statusCode != 200") ++ tail).find?
      (fun e => e.Error == "not found") = none := by
  induction j with
  | zero => simpa using ht
  | succ j ih =>
    rw [List.replicate_succ, List.cons_append, List.find?_cons]
    have : ((errorsNew "statusCode != 200").Error == "not found") = false := by decide
    rw [this]
    exact ih

/-- A connection failure at attempt `j + 1`, after `j` retried statuses, ends the
download there. -/
theorem download_connect_failure_at (env : Env) (url : String) (out : File) (w : World)
    (hreq : env.newRequestErr url = none) (j : Nat) (hj : j < RetryAttempts)
    (hfail : ∀ i, i < j → ∃ r, env.get (w.requests.length + i) = .ok r
      ∧ r.StatusCode ≠ 404 ∧ r.StatusCode ≠ 200)
    (e : GoError) (hget : env.get (w.requests.length + j) = .error e) :
    (downloadFileFromURL env out url w).1
      = .error (errorfW ("failed downloading URL " ++ goQuote env.isPrint url ++ ". Error ")
          (retryError (List.replicate j (errorsNew "statusCode != 200")
            ++ [errorfW ("failed to get url " ++ url ++ ": ") e])))
    ∧ (downloadFileFromURL env out url w).2.requests
      = w.requests ++ List.replicate (j + 1) (.get url) := by
  have hj5 : j < 5 := hj
  have hhead : ("failed to get url " ++ url ++ ": ").data.head? = some 'f' :=
    head_append_lit _ _ _ (head_append_lit _ _ _ (by decide))
  obtain ⟨w1, cs1, hloop, hreqs, _⟩ :=
    retryLoop_status_prefix env url out hreq j 4 [] w "" (by omega) hfail
  have hlen : w1.requests.length = w.requests.length + j := by
    rw [hreqs]; simp
  have hstep := attempt_connect env url w1 out cs1 e hreq (by rw [hlen]; exact hget)
  have hfin := retryLoop_stop (downloadAttempt env url) retryIfStatus
    (fun s => { s with w := s.w.sleep }) (4 - j)
    ([] ++ List.replicate j (errorsNew "statusCode != 200")) _ _ _ hstep
    (retryIfStatus_errorfW _ e hhead)
  have hrun : retryLoop (downloadAttempt env url) retryIfStatus
      (fun s => { s with w := s.w.sleep }) (RetryAttempts - 1) []
      { w := w, out := out, checksum := "" } = _ := hloop.trans hfin
  have hfind := find_notFound_status j [errorfW ("failed to get url " ++ url ++ ": ") e]
    (by simp [List.find?, notFound_errorfW _ e hhead])
  unfold downloadFileFromURL
  rw [hrun]
  simp only [List.nil_append, hfind]
  refine ⟨trivial, ?_⟩
  simp [World.send, hreqs, List.replicate_succ']

/-- Claim C3, as the code has it. With the budget `RetryAttempts = 5`, for a URL whose
request can be built: if the first `k - 1` answers (`1 ≤ k ≤ 5`) are statuses other than 200
and 404 and answer `k` is a 200 whose body copies cleanly, the download succeeds and sends
exactly `k` GET requests; if the first answer is 404 it fails with the bare error
`not found` after exactly one request; if five answers are statuses other than 200 and 404
it fails after exactly five requests with an error that wraps the `retry.Error` of the five
causes and whose text contains the URL as `%q` prints it (Go-quoted), which is the URL
verbatim between double quotes whenever the URL has only printable ASCII characters other
than the double quote and the backslash. -/
theorem downloadFileFromURL_retry_schedule (env : Env) (url : String) (out : File) (w : World)
    (hreq : env.newRequestErr url = none) :
    (∀ (k : Nat) (resp : Response), 1 ≤ k → k ≤ RetryAttempts →
      (∀ i, i < k - 1 → ∃ r, env.get (w.requests.length + i) = .ok r
        ∧ r.StatusCode ≠ 404 ∧ r.StatusCode ≠ 200) →
      env.get (w.requests.length + (k - 1)) = .ok resp → resp.StatusCode = 200 →
      resp.Body.err = none →
      (downloadFileFromURL env out url w).1 = .ok (hexEncode (env.sha256 resp.Body.data))
      ∧ (downloadFileFromURL env out url w).2.requests
          = w.requests ++ List.replicate k (.get url))
    ∧ (∀ resp : Response, env.get w.requests.length = .ok resp → resp.StatusCode = 404 →
      downloadFileFromURL env out url w = (.error (errorsNew "not found"), w.send (.get url)))
    ∧ ((∀ i, i < RetryAttempts → ∃ r, env.get (w.requests.length + i) = .ok r
        ∧ r.StatusCode ≠ 404 ∧ r.StatusCode ≠ 200) →
      (downloadFileFromURL env out url w).2.requests
          = w.requests ++ List.replicate RetryAttempts (.get url)
      ∧ ∃ e, (downloadFileFromURL env out url w).1 = .error e
        ∧ e.causes = [retryError (List.replicate RetryAttempts (errorsNew "statusCode != 200"))]
        ∧ e.Error = "failed downloading URL " ++ goQuote env.isPrint url ++ ". Error "
            ++ (retryError (List.replicate RetryAttempts (errorsNew "statusCode != 200"))).Error
        ∧ Contains e.Error (goQuote env.isPrint url)
        ∧ ((∀ c ∈ url.data, plainChar c) → Contains e.Error url)) := by
  refine ⟨?_, ?_, ?_⟩
  · intro k resp hk1 hk5 hfail hget h200 hbody
    exact download_succeeds_at env url out w hreq k resp hk1 hk5 hfail hget h200 hbody
  · intro resp hget h404
    exact download_notFound env url out w hreq resp hget h404
  · intro hfail
    obtain ⟨h1, h2⟩ := download_exhausts env url out w hreq hfail
    refine ⟨h2, _, h1, rfl, rfl, ?_, ?_⟩
    · exact contains_append _ _ _ (contains_append _ _ _ (contains_mid_right _ _))
    · intro hplain
      rw [goQuote_plain env.isPrint url hplain]
      exact contains_append _ _ _ (contains_append _ _ _
        (contains_prepend _ _ _ (contains_append _ _ _ (contains_mid_right _ _))))

theorem downloadFileFromURL_retry_schedule_witness :
    flakyEnv.newRequestErr "https://h/a.zip" = none
    ∧ (downloadFileFromURL flakyEnv zipHandle "https://h/a.zip" emptyWorld).1 = .ok "50"
    ∧ (downloadFileFromURL flakyEnv zipHandle "https://h/a.zip" emptyWorld).2.requests
        = List.replicate 3 (.get "https://h/a.zip") :=
  ⟨rfl, (downloadFileFromURL_retry_schedule flakyEnv "https://h/a.zip" zipHandle emptyWorld rfl).1
    3 { StatusCode := 200, Body := { data := [80, 75], err := none } } (by decide) (by decide)
    (fun i hi => ⟨{ StatusCode := 503, Body := { data := [80, 75], err := none } },
      by
        have hi2 : i < 2 := hi
        simp [flakyEnv, scenario, emptyWorld, hi2, reply],
      by decide, by decide⟩)
    rfl rfl rfl⟩

/-- Claim C4, as the code has it. In `downloadFileFromURL` only a status other than 200
and 404 is retried. A connection failure (the client returns an error instead of a response)
ends the download at the attempt where it happens: after `j < 5` retried statuses and then a
connection failure exactly `j + 1` GET requests have been sent (exactly one when the first
attempt fails to connect, whatever later attempts would have received) and the wrapped
error is returned. Five statuses other than 200 and 404 use up the budget of
`RetryAttempts = 5` requests. -/
theorem downloadFileFromURL_connect_failure (env : Env) (url : String) (out : File) (w : World)
    (hreq : env.newRequestErr url = none) :
    (∀ (j : Nat) (e : GoError), j < RetryAttempts →
      (∀ i, i < j → ∃ r, env.get (w.requests.length + i) = .ok r
        ∧ r.StatusCode ≠ 404 ∧ r.StatusCode ≠ 200) →
      env.get (w.requests.length + j) = .error e →
      (downloadFileFromURL env out url w).1
        = .error (errorfW ("failed downloading URL " ++ goQuote env.isPrint url ++ ". Error ")
            (retryError (List.replicate j (errorsNew "statusCode != 200")
              ++ [errorfW ("failed to get url " ++ url ++ ": ") e])))
      ∧ (downloadFileFromURL env out url w).2.requests
        = w.requests ++ List.replicate (j + 1) (.get url))
    ∧ ((∀ i, i < RetryAttempts → ∃ r, env.get (w.requests.length + i) = .ok r
        ∧ r.StatusCode ≠ 404 ∧ r.StatusCode ≠ 200) →
      (downloadFileFromURL env out url w).1
        = .error (errorfW ("failed downloading URL " ++ goQuote env.isPrint url ++ ". Error ")
            (retryError (List.replicate RetryAttempts (errorsNew "statusCode != 200"))))
      ∧ (downloadFileFromURL env out url w).2.requests
        = w.requests ++ List.replicate RetryAttempts (.get url)) := by
  refine ⟨?_, ?_⟩
  · intro j e hj hfail hget
    exact download_connect_failure_at env url out w hreq j hj hfail e hget
  · intro hfail
    exact download_exhausts env url out w hreq hfail

theorem downloadFileFromURL_connect_failure_witness :
    downEnv.newRequestErr "https://h/a.zip" = none
    ∧ (downloadFileFromURL downEnv zipHandle "https://h/a.zip" emptyWorld).2.requests
        = [] ++ List.replicate 1 (.get "https://h/a.zip") :=
  ⟨rfl, ((downloadFileFromURL_connect_failure downEnv "https://h/a.zip" zipHandle emptyWorld
    rfl).1 0 (errorsNew "connection refused") (by decide)
    (fun i hi => absurd hi (Nat.not_lt_zero i)) rfl).2⟩

/-- A failure that is neither the copy nor the close failure, with nothing of the
download at the final path. -/
theorem outcome_clear (env : Env) (p : String) (err : GoError) (w1 : World)
    (hl : ¬ copyOrCloseFailure err) (hc : pathClear env w1 p) :
    finalPathOutcome env p err w1 := by
  refine ⟨⟨?_, fun h => absurd h hl⟩, fun _ => ⟨hc, pathClear_absent env w1 p hc⟩, ?_, ?_⟩
  · rintro ⟨d, hd⟩
    exact absurd hd (pathClear_noFile env w1 p hc d)
  · intro e he
    exact absurd (Or.inl ⟨e, he⟩) hl
  · intro e he
    exact absurd (Or.inr ⟨e, he⟩) hl

/-- The outcome of a failed run, from the shape of the run. -/
theorem failure_outcome (env : Env) (p : String) (err : GoError) (w1 : World)
    (hshape : (∃ e, some err = some e ∧ ¬ copyOrCloseFailure e ∧ pathClear env w1 p)
      ∨ (∃ w3 archive nm f, pathClear env w3 p
          ∧ zipOpenReader env (p ++ ".zip") w3 = .ok archive
          ∧ archiveOpen archive nm = .ok f ∧ writeEntry env p f w3 = (some err, w1))) :
    finalPathOutcome env p err w1 := by
  rcases hshape with ⟨e, he, hl, hc⟩ | ⟨w3, archive, nm, f, hc, hz, ho, hf⟩
  · simp only [Option.some.injEq] at he
    subst he
    exact outcome_clear env p err w1 hl hc
  · have hzip : zipOpenReader env (p ++ ".zip") w1 = .ok archive := by
      rw [← hz]
      apply zipOpenReader_congr
      have h := writeEntry_fs_other env p (p ++ ".zip") f w3 (fun x => zip_ne p x.symm)
      rw [hf] at h
      exact h
    rcases writeEntry_spec env p f w3 w1 (some err) hf with
      ⟨he, _⟩ | ⟨e0, he, hw⟩ | ⟨e0, hfe, he, hfs⟩ | ⟨e0, hfe, hce, he, hfs⟩
    · simp at he
    · simp only [Option.some.injEq] at he
      subst he; subst hw
      exact outcome_clear env p _ _
        (not_copyOrClose_lit3 _ p ": " e0 (by decide) (by decide) (by decide)) hc
    · simp only [Option.some.injEq] at he
      subst he
      have hlate : copyOrCloseFailure (errorfW "failed to copy body to file: " e0) :=
        Or.inl ⟨e0, rfl⟩
      refine ⟨⟨fun _ => hlate, fun _ => ⟨_, hfs⟩⟩, fun h => absurd hlate h, ?_, ?_⟩
      · intro e he
        have := errorfW_cause _ _ _ _ he
        subst this
        exact ⟨archive, nm, f, hzip, ho, hfe, hfs⟩
      · intro e he
        exact absurd he (copy_ne_close e0 e)
    · simp only [Option.some.injEq] at he
      subst he
      have hlate : copyOrCloseFailure (errorfW "failed to close file: " e0) :=
        Or.inr ⟨e0, rfl⟩
      refine ⟨⟨fun _ => hlate, fun _ => ⟨_, hfs⟩⟩, fun h => absurd hlate h, ?_, ?_⟩
      · intro e he
        exact absurd he.symm (copy_ne_close e e0)
      · intro e he
        have := errorfW_cause _ _ _ _ he
        subst this
        exact ⟨archive, nm, f, hzip, ho, hfe, hce, hfs⟩

/-- Claim C8, as the code has it. For both orchestrators, started where the final
path `p` does not exist, a call that fails with `err` leaves a file at the final path
exactly when `err` is the copy failure or the close failure of the last step. For every
other error, and in particular when the archive cannot be opened, the origin is
unrecognised, the expected entry is absent or the final file cannot be created, nothing of
the download is at the final path: no file, and the path is still absent whenever
`filepath.Dir p` is not `p` itself (paths are compared as strings). When copying the entry
fails part-way the final file stays, holding the bytes delivered before the break by an
entry of the archive that is still at `p.zip`; when closing fails the final file stays,
holding the whole entry. -/
theorem extraction_failure_final_path (env : Env) (p : String) (w w1 : World) (err : GoError)
    (hne : w.exists_ p = false)
    (hrun : (∃ (org name version : String) (typ : PluginType),
        DownloadPluginFromGithub env p org name version typ w = (some err, w1))
      ∨ (∃ ops : HubDownloadOptions, ops.LocalPath = p
        ∧ DownloadPluginFromHub env ops w = (some err, w1))) :
    ((∃ d, w1.fs p = some (.file d)) ↔ copyOrCloseFailure err)
    ∧ (¬ copyOrCloseFailure err →
        pathClear env w1 p ∧ (env.dir p ≠ p → w1.exists_ p = false))
    ∧ ((∃ e, err = errorfW "failed to open plugin archive: " e)
        ∨ (∃ url, err = errorsNew ("unknown GitHub " ++ url))
        ∨ (∃ name e,
            err = errorfW ("failed to open plugin archive plugins/source/" ++ name ++ ": ") e)
        ∨ (∃ e, err = errorfW ("failed to create file " ++ p ++ ": ") e) →
        (∀ d, w1.fs p ≠ some (.file d)) ∧ pathClear env w1 p
          ∧ (env.dir p ≠ p → w1.exists_ p = false))
    ∧ (∀ e, err = errorfW "failed to copy body to file: " e →
        ∃ archive nm f, zipOpenReader env (p ++ ".zip") w1 = .ok archive
          ∧ archiveOpen archive nm = .ok f ∧ f.err = some e
          ∧ w1.fs p = some (.file f.data))
    ∧ (∀ e, err = errorfW "failed to close file: " e →
        ∃ archive nm f, zipOpenReader env (p ++ ".zip") w1 = .ok archive
          ∧ archiveOpen archive nm = .ok f ∧ f.err = none ∧ env.closeErr p = some e
          ∧ w1.fs p = some (.file f.data)) := by
  have hout : finalPathOutcome env p err w1 := by
    rcases hrun with ⟨org, name, version, typ, h⟩ | ⟨ops, hp, h⟩
    · apply failure_outcome
      rcases github_shape env p org name version typ w w1 (some err) hne h with
        ⟨e, he, hl, hc⟩ | hlate
      · exact Or.inl ⟨e, he, hl, hc⟩
      · exact Or.inr hlate
    · subst hp
      apply failure_outcome
      rcases hub_shape env ops w w1 (some err) hne h with ⟨e, he, hl, hc⟩ | hlate
      · exact Or.inl ⟨e, he, hl, hc⟩
      · exact Or.inr hlate
  obtain ⟨h1, h2, h3, h4⟩ := hout
  refine ⟨h1, h2, ?_, h3, h4⟩
  intro hcause
  have hl : ¬ copyOrCloseFailure err := by
    rcases hcause with ⟨e, he⟩ | ⟨url, he⟩ | ⟨name, e, he⟩ | ⟨e, he⟩
    · rw [he]; exact not_copyOrClose_lit _ e (by decide) (by decide) (by decide)
    · rw [he]; exact not_copyOrClose_errorsNew _
    · rw [he]; exact not_copyOrClose_lit3 _ name ": " e (by decide) (by decide) (by decide)
    · rw [he]; exact not_copyOrClose_lit3 _ p ": " e (by decide) (by decide) (by decide)
  obtain ⟨hc, habs⟩ := h2 hl
  exact ⟨pathClear_noFile env w1 p hc, hc, habs⟩

/-- Claim C3 at a URL holding a double quote: five 503 answers, five GET requests,
and the text of the returned error holds the URL in its Go-quoted form, with the quote
escaped, so the URL itself does not occur in it. -/
theorem download_exhausted_error_quotes_url :
    (downloadFileFromURL busyEnv zipHandle "https://h/a\"b" emptyWorld).2.requests
      = List.replicate 5 (.get "https://h/a\"b")
    ∧ errorText (downloadFileFromURL busyEnv zipHandle "https://h/a\"b" emptyWorld).1
      = some ("failed downloading URL \"https://h/a\\\"b\". Error All attempts fail:\n"
          ++ "#1: statusCode != 200\n#2: statusCode != 200\n#3: statusCode != 200\n"
          ++ "#4: statusCode != 200\n#5: statusCode != 200")
    ∧ ¬ Contains ("failed downloading URL \"https://h/a\\\"b\". Error All attempts fail:\n"
          ++ "#1: statusCode != 200\n#2: statusCode != 200\n#3: statusCode != 200\n"
          ++ "#4: statusCode != 200\n#5: statusCode != 200") "https://h/a\"b" := by
  decide

/-- Claim C4 on connection failures: when no attempt connects, exactly one GET request
is sent, not five; when the first attempt fails to connect and the second would be answered
200, the download fails after that one request. -/
theorem connect_failure_single_attempt :
    (downloadFileFromURL downEnv zipHandle "https://h/a.zip" emptyWorld).2.requests
      = [.get "https://h/a.zip"]
    ∧ (downloadFileFromURL downEnv zipHandle "https://h/a.zip" emptyWorld).2.requests.length
      ≠ RetryAttempts
    ∧ (refusedEnv.get 1).toOption.map (fun r => r.StatusCode) = some 200
    ∧ errorText (downloadFileFromURL refusedEnv zipHandle "https://h/a.zip" emptyWorld).1
      = some ("failed downloading URL \"https://h/a.zip\". Error All attempts fail:\n"
          ++ "#1: failed to get url https://h/a.zip: connection refused")
    ∧ (downloadFileFromURL refusedEnv zipHandle "https://h/a.zip" emptyWorld).2.requests
      = [.get "https://h/a.zip"] := by
  decide

/-- Claim C5 on a download answered 503, 503, 200: the two failure lines print the URL
with its query string, only the last line prints it stripped, and two URLs that differ only
in the query print different lines. -/
theorem failure_line_echoes_query :
    (downloadFileFromURL flakyEnv zipHandle "https://h/a.zip?token=s3cret" emptyWorld).2.stdout
      = ["Failed downloading https://h/a.zip?token=s3cret with status code 503. Retrying\n",
         "Failed downloading https://h/a.zip?token=s3cret with status code 503. Retrying\n",
         "Downloading https://h/a.zip\n"]
    ∧ (downloadFileFromURL flakyEnv zipHandle "https://h/a.zip?token=other" emptyWorld).2.stdout
      = ["Failed downloading https://h/a.zip?token=other with status code 503. Retrying\n",
         "Failed downloading https://h/a.zip?token=other with status code 503. Retrying\n",
         "Downloading https://h/a.zip\n"]
    ∧ (downloadFileFromURL flakyEnv zipHandle "https://h/a.zip?token=s3cret" emptyWorld).2.stdout
      ≠ (downloadFileFromURL flakyEnv zipHandle "https://h/a.zip?token=other" emptyWorld).2.stdout
    ∧ Contains "Failed downloading https://h/a.zip?token=s3cret with status code 503. Retrying\n"
        "token=s3cret" := by
  decide

/-- Claim C6 for `org = "pixis"`, `hackernews` v1.1.4, kind Source: the second candidate
(the monorepo URL, built under `pixis/loki`) matches none of the prefixes of
`DownloadPluginFromGithub` (which look for `pixisai/loki`), so when the resolver returns it
the call ends in `unknown GitHub <url>`. The destination candidates are both recognised,
and for `org = "loki"` the entry is `loki-source-hackernews` on linux. -/
theorem monorepo_source_url_unrecognised :
    candidateURLs probeEnv "pixis" "hackernews" "v1.1.4" .PluginSource = [hnRepoURL, hnMonoURL]
    ∧ pathInArchive "pixis" "hackernews" hnRepoURL = some "loki-source-hackernews"
    ∧ pathInArchive "pixis" "hackernews" hnMonoURL = none
    ∧ (getURLLocation probeEnv "pixis" "hackernews" "v1.1.4" .PluginSource emptyWorld).1.toOption
        = some hnMonoURL
    ∧ (DownloadPluginFromGithub probeEnv "/tmp/hn" "pixis" "hackernews" "v1.1.4" .PluginSource
        emptyWorld).1.map GoError.Error = some ("unknown GitHub " ++ hnMonoURL)
    ∧ (candidateURLs probeEnv "pixis" "postgresql" "v2.0.7" .PluginDestination).map
        (pathInArchive "pixis" "postgresql")
      = [some "loki-destination-postgresql", some "plugins/destination/postgresql"]
    ∧ (candidateURLs probeEnv "loki" "hackernews" "v1.1.4" .PluginSource).map
        (fun u => (pathInArchive "loki" "hackernews" u).map (WithBinarySuffix probeEnv))
      = [some "loki-source-hackernews"] := by
  decide

/-- Claim C8 when the copy of the entry breaks off: in both flows the call fails
with `failed to copy body to file: ...` and the final path, absent before, holds the bytes
copied so far. -/
theorem copy_failure_leaves_partial_file :
    emptyWorld.exists_ "/tmp/hn" = false
    ∧ (DownloadPluginFromGithub truncatedEnv "/tmp/hn" "loki" "hackernews" "v1.1.4" .PluginSource
        emptyWorld).1.map GoError.Error = some "failed to copy body to file: unexpected EOF"
    ∧ (DownloadPluginFromGithub truncatedEnv "/tmp/hn" "loki" "hackernews" "v1.1.4" .PluginSource
        emptyWorld).2.fs "/tmp/hn" = some (.file [1, 2, 3])
    ∧ emptyWorld.exists_ hubOps.LocalPath = false
    ∧ (DownloadPluginFromHub truncatedEnv hubOps emptyWorld).1.map GoError.Error
        = some "failed to copy body to file: unexpected EOF"
    ∧ (DownloadPluginFromHub truncatedEnv hubOps emptyWorld).2.fs hubOps.LocalPath
        = some (.file [4, 5]) := by
  decide

theorem getURLLocation_first_non404_witness :
    candidateURLs probeEnv "pixis" "hackernews" "v1.1.4" .PluginSource = [hnRepoURL] ++ hnMonoURL :: []
    ∧ probeEnv.head hnRepoURL = .ok 404 ∧ probeEnv.head hnMonoURL = .ok 200
    ∧ getURLLocation probeEnv "pixis" "hackernews" "v1.1.4" .PluginSource emptyWorld
        = (.ok hnMonoURL, emptyWorld.sendAll (([hnRepoURL] ++ [hnMonoURL]).map Request.head)) :=
  ⟨by decide, rfl, rfl,
    ((getURLLocation_first_non404 probeEnv "pixis" "hackernews" "v1.1.4" .PluginSource
      emptyWorld).1 [hnRepoURL] [] hnMonoURL (by decide)
      (by intro a ha; rw [List.mem_singleton] at ha; subst ha; exact ⟨rfl, rfl⟩)).1 rfl rfl⟩

theorem hub_checksum_step_witness :
    emptyWorld.exists_ hubOps.LocalPath = false
    ∧ (DownloadPluginFromHub (hubEnv "00") hubOps emptyWorld).1.map GoError.Error
        = some "checksum mismatch: expected 00, got 50" := by
  refine ⟨rfl, ?_⟩
  obtain ⟨err, hrun, htext, _⟩ :=
    (hub_checksum_step (hubEnv "00") hubOps
      { Location := "https://cdn.example/aws.zip?sig=abc", Checksum := "00" }
      emptyWorld (emptyWorld.setNode "/tmp" .dir)
      ((emptyWorld.setNode "/tmp" .dir).send (.hub (hubRequest (hubEnv "00") hubOps none)))
      (downloadFile (hubEnv "00") "/tmp/aws.zip" "https://cdn.example/aws.zip?sig=abc"
        ((emptyWorld.setNode "/tmp" .dir).send
          (.hub (hubRequest (hubEnv "00") hubOps none)))).2
      "50" rfl rfl rfl (by decide) rfl).2.1 (by decide) (by decide)
  rw [hrun]
  show some err.Error = _
  rw [htext]
  rfl

theorem downloadFile_holds_final_body_witness :
    (downloadFile flakyEnv "/tmp/p.zip" "https://h/a.zip" emptyWorld).1 = .ok "50"
    ∧ hexEncode [171, 205, 0, 15] = "abcd000f"
    ∧ ∃ resp, flakyEnv.get
          ((downloadFile flakyEnv "/tmp/p.zip" "https://h/a.zip" emptyWorld).2.requests.length - 1)
          = .ok resp
        ∧ resp.StatusCode = 200 ∧ resp.Body.err = none
        ∧ (downloadFile flakyEnv "/tmp/p.zip" "https://h/a.zip" emptyWorld).2.requests.getLast?
          = some (.get "https://h/a.zip")
        ∧ (downloadFile flakyEnv "/tmp/p.zip" "https://h/a.zip" emptyWorld).2.fs "/tmp/p.zip"
          = some (.file resp.Body.data)
        ∧ "50" = hexEncode (flakyEnv.sha256 resp.Body.data)
        ∧ "50".length = 2 * (flakyEnv.sha256 resp.Body.data).length
        ∧ (∀ c ∈ "50".data, c ∈ "0123456789abcdef".data)
        ∧ hexDecodeLower "50".data = some (flakyEnv.sha256 resp.Body.data) :=
  ⟨rfl, by decide,
    downloadFile_holds_final_body flakyEnv "/tmp/p.zip" "https://h/a.zip" emptyWorld "50" rfl⟩

theorem orchestrators_skip_existing_witness :
    DownloadPluginFromHub (hubEnv "") hubOps emptyWorld
      = (none, (DownloadPluginFromHub (hubEnv "") hubOps emptyWorld).2)
    ∧ (DownloadPluginFromHub (hubEnv "") hubOps emptyWorld).2.requests.length = 2
    ∧ DownloadPluginFromHub downEnv hubOps (DownloadPluginFromHub (hubEnv "") hubOps emptyWorld).2
      = (none, (DownloadPluginFromHub (hubEnv "") hubOps emptyWorld).2) :=
  ⟨rfl, by decide,
    ((orchestrators_skip_existing downEnv "/tmp/aws").2.2.2 (hubEnv "") emptyWorld
      (DownloadPluginFromHub (hubEnv "") hubOps emptyWorld).2 hubOps rfl rfl).2.2 hubOps rfl⟩

theorem extraction_failure_final_path_witness :
    emptyWorld.exists_ "/tmp/hn" = false
    ∧ (DownloadPluginFromGithub emptyZipEnv "/tmp/hn" "loki" "hackernews" "v1.1.4"
        .PluginSource emptyWorld).2.exists_ "/tmp/hn" = false
    ∧ (∃ d, (DownloadPluginFromGithub truncatedEnv "/tmp/hn" "loki" "hackernews" "v1.1.4"
        .PluginSource emptyWorld).2.fs "/tmp/hn" = some (.file d))
    ∧ (∃ d, (DownloadPluginFromGithub closeFailEnv "/tmp/hn" "loki" "hackernews" "v1.1.4"
        .PluginSource emptyWorld).2.fs "/tmp/hn" = some (.file d)) :=
  ⟨rfl,
    ((extraction_failure_final_path emptyZipEnv "/tmp/hn" emptyWorld
      (DownloadPluginFromGithub emptyZipEnv "/tmp/hn" "loki" "hackernews" "v1.1.4"
        .PluginSource emptyWorld).2
      (errorfW ("failed to open plugin archive plugins/source/" ++ "hackernews" ++ ": ")
        (errorsNew "open loki-source-hackernews: file does not exist")) rfl
      (Or.inl ⟨"loki", "hackernews", "v1.1.4", .PluginSource, rfl⟩)).2.2.1
      (Or.inr (Or.inr (Or.inl ⟨"hackernews", _, rfl⟩)))).2.2 (by decide),
    (extraction_failure_final_path truncatedEnv "/tmp/hn" emptyWorld
      (DownloadPluginFromGithub truncatedEnv "/tmp/hn" "loki" "hackernews" "v1.1.4"
        .PluginSource emptyWorld).2
      (errorfW "failed to copy body to file: " (errorsNew "unexpected EOF")) rfl
      (Or.inl ⟨"loki", "hackernews", "v1.1.4", .PluginSource, rfl⟩)).1.2
      (Or.inl ⟨_, rfl⟩),
    (extraction_failure_final_path closeFailEnv "/tmp/hn" emptyWorld
      (DownloadPluginFromGithub closeFailEnv "/tmp/hn" "loki" "hackernews" "v1.1.4"
        .PluginSource emptyWorld).2
      (errorfW "failed to close file: " (errorsNew "input/output error")) rfl
      (Or.inl ⟨"loki", "hackernews", "v1.1.4", .PluginSource, rfl⟩)).1.2
      (Or.inr ⟨_, rfl⟩)⟩

end ManagedPlugin
